import Mathlib

/-!
Verification of the mcp-proxy gateway against its specification.

This file gives a shallow embedding, in Lean 4, of the pure core of the
gateway: the registry loader (`src/mcp_proxy/config_loader.py`), the
dispatcher's argument pipeline (`src/mcp_proxy/mcp_server.py`, `call_tool`),
the JSONPath extraction and output-projection routines
(`src/mcp_proxy/output_transformer.py`) and the JSON-in-text detector
(`src/mcp_proxy/json_detector.py`), together with theorems settling the
spec claims about them.

Modelling conventions:
- Python/JSON data is the inductive type `Json` below.  Numbers are exact
  decimals `mantissa × 10 ^ exponent` (Python's binary-float rounding of
  parsed decimals is not modelled; no claim compares rounded float values).
- Python `dict`s are ordered association lists with unique keys; every
  helper consistently uses the first occurrence of a key.
- A Python function that can raise is modelled with `Except String`; an
  uncaught exception is a `.error`.  A `while` loop that can run forever is
  modelled with explicit fuel, `none` standing for divergence: the source
  chain walks of the loader revisit a tool (and hence never end) exactly
  when they do not finish within the number of tools.
- The SHA-256 digest in `ServerConfig.id` is modelled by the canonical key
  string itself.  Equal keys have equal digests, so every equality of ids
  proved below transfers to the code; the inequality direction is never
  asserted of the model.
-/

namespace McpProxy

/-! ## Python/JSON value model -/

/-- A JSON value as manipulated by the Python code (`dict`s, `list`s,
`str`, numbers, booleans, `None`).  Numbers are exact decimals. -/
inductive Json where
  | null
  | bool (b : Bool)
  | num (mant : Int) (exp10 : Int)
  | str (s : String)
  | arr (elems : List Json)
  | obj (entries : List (String × Json))

/-- Python truthiness of a JSON value (`bool(x)`). -/
def Json.truthy : Json → Bool
  | .null => false
  | .bool b => b
  | .num m _ => m != 0
  | .str s => !s.toList.isEmpty
  | .arr l => !l.isEmpty
  | .obj l => !l.isEmpty

/-- Entries of an object, if the value is one. -/
def Json.objEntries : Json → Option (List (String × Json))
  | .obj es => some es
  | _ => none

/-- First binding of a key in an association list. -/
def entriesGet (es : List (String × Json)) (k : String) : Option Json :=
  (es.find? (fun kv => kv.1 == k)).map (·.2)

/-- Whether an association list binds a key. -/
def entriesHas (es : List (String × Json)) (k : String) : Bool :=
  es.any (fun kv => kv.1 == k)

/-- Python `d.get(k)` on a dict value; `none` when the value is not a dict
or the key is absent. -/
def jGet (j : Json) (k : String) : Option Json :=
  (j.objEntries).bind (fun es => entriesGet es k)

/-- Python `d[k] = v` on a dict: replace the binding in place, else append. -/
def entriesSet (es : List (String × Json)) (k : String) (v : Json) : List (String × Json) :=
  if entriesHas es k then
    es.map (fun kv => if kv.1 == k then (k, v) else kv)
  else
    es ++ [(k, v)]

/-- Python `del d[k]` on a dict (the key is known to be unique). -/
def entriesDel (es : List (String × Json)) (k : String) : List (String × Json) :=
  es.filter (fun kv => kv.1 != k)

/-- Keys of an association list, in order. -/
def entriesKeys (es : List (String × Json)) : List String :=
  es.map (·.1)

/-- Python truthiness of an optional string (`None` and `""` are falsy). -/
def optStrTruthy : Option String → Bool
  | none => false
  | some s => !s.toList.isEmpty

/-- Python `a or b` for an optional string against a string default. -/
def pyOrStr (a : Option String) (b : String) : String :=
  match a with
  | some s => if s.toList.isEmpty then b else s
  | none => b

/-- Python truthiness of an `Option Json` (`None` is falsy, otherwise the
value's own truthiness decides). -/
def optJsonTruthy : Option Json → Bool
  | none => false
  | some j => j.truthy

/-! ## `ServerConfig` and its derived id (`config_loader.py`, lines 16-31)

Embeds:

    @dataclass(frozen=True)
    class ServerConfig:
        command: str | None = None
        args: tuple[str, ...] = ()
        url: str | None = None
        transport: Literal["sse", "streamablehttp"] = "sse"
        env: tuple[tuple[str, str], ...] = ()
        auth: Literal["none", "oauth"] = "none"

        @property
        def id(self) -> str:
            key = f"{self.command}|{self.args}|{self.url}|{self.transport}|{sorted(self.env)}|{self.auth}"
            return hashlib.sha256(key.encode()).hexdigest()
-/

/-- Configuration of one MCP backend server. -/
structure ServerConfig where
  command : Option String := none
  args : List String := []
  url : Option String := none
  transport : String := "sse"
  env : List (String × String) := []
  auth : String := "none"

/-- Python `str(x)` for `str | None` as interpolated by an f-string. -/
def pyStrOfOpt : Option String → String
  | none => "None"
  | some s => s

/-- Python `repr` of a simple string (no quotes or backslashes inside; the
strings compared by the claims are of this shape). -/
def pyReprStr (s : String) : String :=
  "'" ++ s ++ "'"

/-- Python `repr` of a tuple of strings, as interpolated by an f-string. -/
def pyReprStrTuple : List String → String
  | [] => "()"
  | [a] => "(" ++ pyReprStr a ++ ",)"
  | a :: rest => "(" ++ pyReprStr a ++ (rest.map (fun x => ", " ++ pyReprStr x)).foldl (· ++ ·) "" ++ ")"

/-- Python `repr` of a pair of strings. -/
def pyReprStrPair (p : String × String) : String :=
  "(" ++ pyReprStr p.1 ++ ", " ++ pyReprStr p.2 ++ ")"

/-- Python `repr` of a list of string pairs. -/
def pyReprPairList : List (String × String) → String
  | [] => "[]"
  | a :: rest => "[" ++ pyReprStrPair a ++ (rest.map (fun x => ", " ++ pyReprStrPair x)).foldl (· ++ ·) "" ++ "]"

/-- Python tuple comparison on `(str, str)` pairs: lexicographic by code
points, as used by `sorted(self.env)`. -/
def envPairLe (p q : String × String) : Prop :=
  p.1 < q.1 ∨ (p.1 = q.1 ∧ p.2 ≤ q.2)

instance : DecidableRel envPairLe := fun p q => by
  unfold envPairLe
  infer_instance

/-- Python `sorted` on the env pairs (any correct stable sort yields the
same list, so insertion sort models it exactly). -/
def sortedEnv (env : List (String × String)) : List (String × String) :=
  List.insertionSort envPairLe env

/-- Canonical key string of a `ServerConfig`, exactly the f-string of the
source.  The derived id is `sha256(key)`; since SHA-256 is a function of
the key, the id is modelled by the key itself (see the header comment). -/
def serverKey (c : ServerConfig) : String :=
  pyStrOfOpt c.command ++ "|" ++ pyReprStrTuple c.args ++ "|" ++ pyStrOfOpt c.url ++ "|"
    ++ c.transport ++ "|" ++ pyReprPairList (sortedEnv c.env) ++ "|" ++ c.auth

/-- Derived server id (SHA-256 modelled by the canonical key). -/
def ServerConfig.id (c : ServerConfig) : String :=
  serverKey c

/-! ## `VirtualTool` (`config_loader.py`, lines 34-44) -/

/-- A tool exposed by the gateway, with exactly the fields the dataclass
in `config_loader.py` declares. -/
structure VirtualTool where
  name : String
  description : Option String
  input_schema : Json
  server_id : String
  original_name : Option String := none
  defaults : List (String × Json) := []
  output_schema : Option Json := none
  text_extraction : Option Json := none

/-- The field names of the `VirtualTool` dataclass in
`config_loader.py` (its `__init__` keywords and instance attributes). -/
def virtualToolFieldNames : List String :=
  ["name", "description", "input_schema", "server_id", "original_name",
   "defaults", "output_schema", "text_extraction"]

/-- The validation fields that `mcp_server.call_tool` (line 291),
`_validate_all_backends` (line 174) and `tool_versioning.py` read or
assign on a `VirtualTool`, and that the spec's data model lists. -/
def validationFieldNames : List String :=
  ["validation_mode", "validation_status", "validation_message",
   "expected_schema_hash", "computed_schema_hash"]

/-! ## Dispatcher argument pipeline (`mcp_server.py`, `call_tool` lines 312-344) -/

/-- Defaults injection: `final_args = arguments.copy()`, then every default
whose key is absent is appended (`if k not in final_args: final_args[k] = v`). -/
def mergeDefaults (args : List (String × Json)) (defaults : List (String × Json)) :
    List (String × Json) :=
  defaults.foldl (fun acc kv => if entriesHas acc kv.1 then acc else acc ++ [kv]) args

/-- Python `int(s)` on a string: optional surrounding whitespace, optional
sign, decimal digits (digit-group underscores are not modelled). -/
def pyParseInt (s : String) : Option Int :=
  let cs := s.toList.dropWhile (fun c => c == ' ' || c == '\t' || c == '\n' || c == '\r')
  let cs := (cs.reverse.dropWhile (fun c => c == ' ' || c == '\t' || c == '\n' || c == '\r')).reverse
  let (neg, ds) : Bool × List Char :=
    match cs with
    | '-' :: rest => (true, rest)
    | '+' :: rest => (false, rest)
    | _ => (false, cs)
  if ds.isEmpty || !ds.all (·.isDigit) then none
  else
    let n : Nat := ds.foldl (fun acc c => acc * 10 + (c.toNat - '0'.toNat)) 0
    some (if neg then -(n : Int) else (n : Int))

/-- Python `float(s)` on a string, restricted to finite decimals:
optional whitespace and sign, digits with an optional fraction and an
optional exponent (`inf`/`nan` forms are not modelled; the value is kept
as an exact decimal).  Returns `(mantissa, exponent)`. -/
def pyParseFloat (s : String) : Option (Int × Int) :=
  let cs := s.toList.dropWhile (fun c => c == ' ' || c == '\t' || c == '\n' || c == '\r')
  let cs := (cs.reverse.dropWhile (fun c => c == ' ' || c == '\t' || c == '\n' || c == '\r')).reverse
  let (neg, cs1) : Bool × List Char :=
    match cs with
    | '-' :: rest => (true, rest)
    | '+' :: rest => (false, rest)
    | _ => (false, cs)
  let intDs := cs1.takeWhile (·.isDigit)
  let rest1 := cs1.dropWhile (·.isDigit)
  let (fracDs, rest2) : List Char × List Char :=
    match rest1 with
    | '.' :: r => (r.takeWhile (·.isDigit), r.dropWhile (·.isDigit))
    | _ => ([], rest1)
  if intDs.isEmpty && fracDs.isEmpty then none
  else
    let (expOk, expNeg, expDs, rest3) : Bool × Bool × List Char × List Char :=
      match rest2 with
      | 'e' :: '-' :: r => (true, true, r.takeWhile (·.isDigit), r.dropWhile (·.isDigit))
      | 'e' :: '+' :: r => (true, false, r.takeWhile (·.isDigit), r.dropWhile (·.isDigit))
      | 'e' :: r => (true, false, r.takeWhile (·.isDigit), r.dropWhile (·.isDigit))
      | 'E' :: '-' :: r => (true, true, r.takeWhile (·.isDigit), r.dropWhile (·.isDigit))
      | 'E' :: '+' :: r => (true, false, r.takeWhile (·.isDigit), r.dropWhile (·.isDigit))
      | 'E' :: r => (true, false, r.takeWhile (·.isDigit), r.dropWhile (·.isDigit))
      | _ => (false, false, [], rest2)
    if expOk && expDs.isEmpty then none
    else if !rest3.isEmpty then none
    else
      let mant : Nat := (intDs ++ fracDs).foldl (fun acc c => acc * 10 + (c.toNat - '0'.toNat)) 0
      let expVal : Int := (if expNeg then -(expDs.foldl (fun acc c => acc * 10 + (c.toNat - '0'.toNat)) 0 : Int)
                           else (expDs.foldl (fun acc c => acc * 10 + (c.toNat - '0'.toNat)) 0 : Int))
                          - (fracDs.length : Int)
      some ((if neg then -(mant : Int) else (mant : Int)), expVal)

/-- Type coercion of a single argument (`call_tool` lines 322-337): a
string-typed value whose schema property declares `integer` or `number`
is parsed; on parse failure it is kept as is. -/
def coerceValue (schemaProps : Json) (k : String) (v : Json) : Json :=
  match v with
  | .str s =>
    match jGet schemaProps k with
    | some propSchema =>
      match jGet propSchema "type" with
      | some (.str "integer") =>
        match pyParseInt s with
        | some n => .num n 0
        | none => v
      | some (.str "number") =>
        match pyParseFloat s with
        | some (m, e) => .num m e
        | none => v
      | _ => v
    | none => v
  | _ => v

/-- Coercion pass over the whole argument dict (positions preserved). -/
def coerceArgs (schemaProps : Json) (m : List (String × Json)) : List (String × Json) :=
  m.map (fun kv => (kv.1, coerceValue schemaProps kv.1 kv.2))

/-- The schema properties used for coercion:
`tool.input_schema.get("properties", {})`. -/
def schemaPropsOf (tool : VirtualTool) : Json :=
  (jGet tool.input_schema "properties").getD (.obj [])

/-- The argument map sent to the backend: defaults injection followed by
type coercion, as in `call_tool` lines 312-337. -/
def buildFinalArgs (tool : VirtualTool) (args : List (String × Json)) : List (String × Json) :=
  coerceArgs (schemaPropsOf tool) (mergeDefaults args tool.defaults)

/-- The backend tool name used by the dispatcher:
`target_name = tool.original_name or tool.name` (line 340). -/
def targetName (tool : VirtualTool) : String :=
  pyOrStr tool.original_name tool.name

/-! ## JSONPath evaluation (`output_transformer.py`, `extract_value` lines 21-62)

The `jsonpath_ng` engine is an external library; the spec pins exactly the
features the gateway relies on.  Modelled from the spec: the path language
of §4.1 and §9 — a `$` root (or a bare leading field, which the engine also
accepts), dot fields, integer indices `[n]` and the wildcard `[*]`; a path
outside this language is a parse error.  `extract_value` itself is
translated from the source. -/

/-- One JSONPath segment. -/
inductive PathStep where
  | field (name : String)
  | index (i : Nat)
  | wild

/-- Characters that may start a field name. -/
def identStart (c : Char) : Bool :=
  c.isAlpha || c == '_' || c == '@'

/-- Characters that may continue a field name. -/
def identChar (c : Char) : Bool :=
  c.isAlphanum || c == '_' || c == '@' || c == '-'

/-- Whether the text begins with the three characters `[*]`. -/
def startsStarBrkt : List Char → Bool
  | a :: b :: c :: _ => a == '[' && b == '*' && c == ']'
  | _ => false

/-- Parse the segments after the root, with fuel (the input length bounds
the recursion). -/
def parseSteps : Nat → List Char → Option (List PathStep)
  | 0, _ => none
  | _ + 1, [] => some []
  | fuel + 1, c :: rest =>
    if c == '.' then
      let name := rest.takeWhile identChar
      if name.isEmpty || !identStart name.head! then none
      else (parseSteps fuel (rest.dropWhile identChar)).map
        (PathStep.field (String.mk name) :: ·)
    else if c == '[' then
      if startsStarBrkt (c :: rest) then
        (parseSteps fuel (rest.drop 2)).map (PathStep.wild :: ·)
      else
        let ds := rest.takeWhile (·.isDigit)
        match rest.dropWhile (·.isDigit) with
        | c2 :: rest3 =>
          if c2 == ']' && !ds.isEmpty then
            (parseSteps fuel rest3).map
              (PathStep.index (ds.foldl (fun acc c3 => acc * 10 + (c3.toNat - '0'.toNat)) 0) :: ·)
          else none
        | [] => none
    else none

/-- Parse a whole JSONPath as a character list. -/
def parsePathChars : List Char → Option (List PathStep)
  | [] => none
  | c :: rest =>
    if c == '$' then parseSteps (rest.length + 1) rest
    else if identStart c then
      (parseSteps (((c :: rest).dropWhile identChar).length + 1) ((c :: rest).dropWhile identChar)).map
        (PathStep.field (String.mk ((c :: rest).takeWhile identChar)) :: ·)
    else none

/-- Parse a whole JSONPath string. -/
def parsePath (s : String) : Option (List PathStep) :=
  parsePathChars s.toList

/-- Matches of one segment against one value. -/
def evalStep (st : PathStep) (j : Json) : List Json :=
  match st, j with
  | .field k, .obj es =>
    match entriesGet es k with
    | some v => [v]
    | none => []
  | .field _, _ => []
  | .index i, .arr l =>
    match l.get? i with
    | some v => [v]
    | none => []
  | .index _, _ => []
  | .wild, .arr l => l
  | .wild, _ => []

/-- All matches of a parsed path, in document order. -/
def evalPath (steps : List PathStep) (j : Json) : List Json :=
  steps.foldl (fun ms st => ms.flatMap (evalStep st)) [j]

/-- The source's wildcard test, the literal substring check
`"[*]" in path`. -/
def hasStarBrkt : List Char → Bool
  | [] => false
  | c :: rest => startsStarBrkt (c :: rest) || hasStarBrkt rest

/-- Translation of `extract_value(data, path)`.  Python's single `None`
plays both the no-match result and the JSON `null` value, so a single
match whose value is `null` is indistinguishable from no match; the model
returns `none` for both. -/
def extract_value (data : Json) (path : String) : Option Json :=
  if path.toList.isEmpty || !data.truthy then none
  else
    match parsePath path with
    | none => none
    | some steps =>
      match evalPath steps data with
      | [] => none
      | [v] =>
        if hasStarBrkt path.toList then some (.arr [v])
        else
          match v with
          | .null => none
          | _ => some v
      | ms => some (.arr ms)

/-! ## Output projection (`output_transformer.py`, lines 65-159) -/

/-- Whether a property's `items` schema triggers the array-of-objects
branch: a dict with `type == "object"` and a `properties` key
(`apply_output_projection` lines 100-104). -/
def isObjectItems (itemsJ : Json) : Bool :=
  match itemsJ.objEntries with
  | some es =>
    (match entriesGet es "type" with
     | some (.str "object") => true
     | _ => false)
    && entriesHas es "properties"
  | none => false

/-- Projection of the properties of a single array element
(`_project_element` lines 146-158).  A truthy `source_field` is assigned
even when extraction misses (Python stores `None`, i.e. JSON `null`);
otherwise the field passes through when present on the element. -/
def projElemProps (ees : List (String × Json)) : List (String × Json) → List (String × Json)
  | [] => []
  | (fname, fschema) :: rest =>
    let tail := projElemProps ees rest
    match fschema.objEntries with
    | none => tail
    | some fes =>
      match entriesGet fes "source_field" with
      | some (.str sf) =>
        if sf.toList.isEmpty then
          (if entriesHas ees fname then (fname, (entriesGet ees fname).getD .null) :: tail else tail)
        else
          (fname, (extract_value (.obj ees) sf).getD .null) :: tail
      | _ =>
        if entriesHas ees fname then (fname, (entriesGet ees fname).getD .null) :: tail else tail

/-- Translation of `_project_element(element, properties)`: a non-dict
element projects to the empty dict. -/
def projElement (properties : Json) (element : Json) : Json :=
  match element.objEntries with
  | none => .obj []
  | some ees => .obj (projElemProps ees (properties.objEntries.getD []))

/-- Projection of the top-level properties (`apply_output_projection`
lines 91-123).  Fields whose extraction misses are omitted; the
array-of-objects branch maps `_project_element` over the selected list. -/
def projectProps (structured : Json) : List (String × Json) → List (String × Json)
  | [] => []
  | (fname, fschema) :: rest =>
    let tail := projectProps structured rest
    match fschema.objEntries with
    | none => tail
    | some fes =>
      match entriesGet fes "source_field" with
      | some (.str sf) =>
        if sf.toList.isEmpty then
          (if entriesHas (structured.objEntries.getD []) fname then
            (fname, (entriesGet (structured.objEntries.getD []) fname).getD .null) :: tail
          else tail)
        else
          match entriesGet fes "items" with
          | some itemsJ =>
            if isObjectItems itemsJ then
              match extract_value structured sf with
              | some (.arr elems) =>
                (fname, .arr (elems.map (projElement ((jGet itemsJ "properties").getD (.obj []))))) :: tail
              | _ => tail
            else
              match extract_value structured sf with
              | some v => (fname, v) :: tail
              | none => tail
          | none =>
            match extract_value structured sf with
            | some v => (fname, v) :: tail
            | none => tail
      | _ =>
        if entriesHas (structured.objEntries.getD []) fname then
          (fname, (entriesGet (structured.objEntries.getD []) fname).getD .null) :: tail
        else tail

/-- Translation of `apply_output_projection(structured_content,
output_schema)`. -/
def apply_output_projection (structured : Json) (outputSchema : Json) : Json :=
  if !outputSchema.truthy then structured
  else
    match outputSchema.objEntries with
    | none => structured
    | some es =>
      if !entriesHas es "properties" then structured
      else
        match ((entriesGet es "properties").getD .null).objEntries with
        | none => structured
        | some props => .obj (projectProps structured props)

/-! ## Stripping `source_field` (`output_transformer.py`, lines 162-196)

`_strip_source_fields_recursive` pops `source_field` at a dict, then
recurses into dict values and into the items of list values — but a list
inside a list is passed to a call that immediately returns, so only dicts
reachable through at most one consecutive list level are visited. -/

mutual

/-- Recursive strip at a node (`_strip_source_fields_recursive`): only a
dict is rewritten. -/
def stripRec : Json → Json
  | .obj kvs => .obj (stripEntries kvs)
  | j => j

/-- Drop `source_field` bindings and rewrite the remaining values the way
the Python loop over `obj.values()` does. -/
def stripEntries : List (String × Json) → List (String × Json)
  | [] => []
  | (k, v) :: rest =>
    if k == "source_field" then stripEntries rest
    else (k, stripValue v) :: stripEntries rest

/-- One dict value: dicts recurse, lists have their items visited, other
values are untouched. -/
def stripValue : Json → Json
  | .obj kvs => .obj (stripEntries kvs)
  | .arr items => .arr (stripItems items)
  | v => v

/-- Visit each item of a list value. -/
def stripItems : List Json → List Json
  | [] => []
  | i :: rest => stripItem i :: stripItems rest

/-- One list item: only a dict is rewritten (a nested list is not). -/
def stripItem : Json → Json
  | .obj kvs => .obj (stripEntries kvs)
  | v => v

end

/-- Translation of `strip_source_fields(schema)`: falsy schemas are
returned as given, otherwise a deep copy is rewritten (the model is pure,
so the deep copy is implicit and the input is trivially unmodified). -/
def strip_source_fields (schema : Json) : Json :=
  if !schema.truthy then schema
  else stripRec schema

mutual

/-- Whether a `source_field` key occurs anywhere in the value, at any
nesting depth, through both dicts and lists. -/
def hasSFDeep : Json → Bool
  | .obj kvs => deepEntries kvs
  | .arr l => deepItems l
  | _ => false

/-- Deep occurrence check over dict entries. -/
def deepEntries : List (String × Json) → Bool
  | [] => false
  | (k, v) :: rest => k == "source_field" || hasSFDeep v || deepEntries rest

/-- Deep occurrence check over list items. -/
def deepItems : List Json → Bool
  | [] => false
  | i :: rest => hasSFDeep i || deepItems rest

end

mutual

/-- Whether a `source_field` key occurs at a position the strip traversal
visits (dict values, and dicts directly inside a list value). -/
def hasSFReach : Json → Bool
  | .obj kvs => reachEntries kvs
  | _ => false

/-- Reachable occurrence check over dict entries. -/
def reachEntries : List (String × Json) → Bool
  | [] => false
  | (k, v) :: rest => k == "source_field" || reachValue v || reachEntries rest

/-- Reachable occurrence check over one dict value. -/
def reachValue : Json → Bool
  | .obj kvs => reachEntries kvs
  | .arr items => reachItems items
  | _ => false

/-- Reachable occurrence check over list items. -/
def reachItems : List Json → Bool
  | [] => false
  | i :: rest => reachItem i || reachItems rest

/-- Reachable occurrence check on one list item (nested lists are not
visited by the traversal). -/
def reachItem : Json → Bool
  | .obj kvs => reachEntries kvs
  | _ => false

end

/-! ## Python `json.loads` (used by `json_detector.py`)

A strict RFC 8259 parser on the character list, fuel-indexed (the fuel is
the input length, which bounds the recursion).  Python's `NaN`/`Infinity`
extensions and surrogate-pair recombination in `\u` escapes are not
modelled; no claim touches them. -/

/-- JSON whitespace. -/
def jWs (c : Char) : Bool :=
  c == ' ' || c == '\t' || c == '\n' || c == '\r'

/-- Hexadecimal digit value. -/
def hexDigit (c : Char) : Option Nat :=
  let n := c.toNat
  if c.isDigit then some (n - 48)
  else if 97 ≤ n && n ≤ 102 then some (n - 87)
  else if 65 ≤ n && n ≤ 70 then some (n - 55)
  else none

/-- Contents of a JSON string after the opening quote. -/
def jStrTail (fuel : Nat) (acc : List Char) (cs : List Char) : Option (String × List Char) :=
  match fuel with
  | 0 => none
  | fuel + 1 =>
    match cs with
    | '"' :: rest => some (String.mk acc.reverse, rest)
    | '\\' :: 'u' :: a :: b :: c :: d :: rest =>
      match hexDigit a, hexDigit b, hexDigit c, hexDigit d with
      | some va, some vb, some vc, some vd =>
        jStrTail fuel (Char.ofNat (((va * 16 + vb) * 16 + vc) * 16 + vd) :: acc) rest
      | _, _, _, _ => none
    | '\\' :: e :: rest =>
      let esc : Option Char :=
        if e == '"' then some '"'
        else if e == '\\' then some '\\'
        else if e == '/' then some '/'
        else if e == 'n' then some '\n'
        else if e == 't' then some '\t'
        else if e == 'r' then some '\r'
        else if e == 'b' then some (Char.ofNat 8)
        else if e == 'f' then some (Char.ofNat 12)
        else none
      match esc with
      | some ch => jStrTail fuel (ch :: acc) rest
      | none => none
    | c :: rest => if c.toNat < 32 then none else jStrTail fuel (c :: acc) rest
    | [] => none

/-- Digits to a natural number. -/
def digitsVal (ds : List Char) : Nat :=
  ds.foldl (fun acc c => acc * 10 + (c.toNat - '0'.toNat)) 0

/-- A JSON number at the head of the input: strict grammar
`-?(0|[1-9][0-9]*)(.[0-9]+)?([eE][+-]?[0-9]+)?`, kept as an exact decimal
`(mantissa, exponent)`. -/
def jNumHead (cs : List Char) : Option ((Int × Int) × List Char) :=
  let (neg, cs1) : Bool × List Char :=
    match cs with
    | '-' :: r => (true, r)
    | _ => (false, cs)
  let intDs := cs1.takeWhile (·.isDigit)
  let rest1 := cs1.dropWhile (·.isDigit)
  if intDs.isEmpty then none
  else if intDs.length > 1 && intDs.head! == '0' then none
  else
    let (fracDs, rest2) : List Char × List Char :=
      match rest1 with
      | '.' :: r => (r.takeWhile (·.isDigit), r.dropWhile (·.isDigit))
      | _ => ([], rest1)
    if (match rest1 with | '.' :: _ => fracDs.isEmpty | _ => false) then none
    else
      let expPart : Option (Bool × List Char × List Char) :=
        match rest2 with
        | 'e' :: '-' :: r => some (true, r.takeWhile (·.isDigit), r.dropWhile (·.isDigit))
        | 'e' :: '+' :: r => some (false, r.takeWhile (·.isDigit), r.dropWhile (·.isDigit))
        | 'e' :: r => some (false, r.takeWhile (·.isDigit), r.dropWhile (·.isDigit))
        | 'E' :: '-' :: r => some (true, r.takeWhile (·.isDigit), r.dropWhile (·.isDigit))
        | 'E' :: '+' :: r => some (false, r.takeWhile (·.isDigit), r.dropWhile (·.isDigit))
        | 'E' :: r => some (false, r.takeWhile (·.isDigit), r.dropWhile (·.isDigit))
        | _ => none
      match expPart with
      | some (eNeg, eDs, rest3) =>
        if eDs.isEmpty then none
        else
          let mant : Int := (if neg then -1 else 1) * (digitsVal (intDs ++ fracDs) : Int)
          let ex : Int := (if eNeg then -(digitsVal eDs : Int) else (digitsVal eDs : Int))
                          - (fracDs.length : Int)
          some ((mant, ex), rest3)
      | none =>
        let mant : Int := (if neg then -1 else 1) * (digitsVal (intDs ++ fracDs) : Int)
        some ((mant, -(fracDs.length : Int)), rest2)

mutual

/-- A JSON value at the head of the input (leading whitespace allowed). -/
def jVal (fuel : Nat) (cs : List Char) : Option (Json × List Char) :=
  match fuel with
  | 0 => none
  | fuel + 1 =>
    match cs.dropWhile jWs with
    | 'n' :: 'u' :: 'l' :: 'l' :: rest => some (.null, rest)
    | 't' :: 'r' :: 'u' :: 'e' :: rest => some (.bool true, rest)
    | 'f' :: 'a' :: 'l' :: 's' :: 'e' :: rest => some (.bool false, rest)
    | '"' :: rest =>
      match jStrTail (rest.length + 1) [] rest with
      | some (s, rest2) => some (.str s, rest2)
      | none => none
    | '[' :: rest =>
      (match (rest.dropWhile jWs) with
       | ']' :: rest2 => some (.arr [], rest2)
       | _ =>
         match jItems fuel rest with
         | some (items, rest2) => some (.arr items, rest2)
         | none => none)
    | '{' :: rest =>
      (match (rest.dropWhile jWs) with
       | '}' :: rest2 => some (.obj [], rest2)
       | _ =>
         match jMembers fuel rest with
         | some (entries, rest2) =>
           -- Python builds the dict by repeated assignment: a repeated key
           -- keeps its first position and its last value.
           some (.obj (entries.foldl (fun acc kv => entriesSet acc kv.1 kv.2) []), rest2)
         | none => none)
    | other =>
      match jNumHead other with
      | some ((m, e), rest) => some (.num m e, rest)
      | none => none

/-- Comma-separated array items up to the closing bracket. -/
def jItems (fuel : Nat) (cs : List Char) : Option (List Json × List Char) :=
  match fuel with
  | 0 => none
  | fuel + 1 =>
    match jVal fuel cs with
    | some (v, rest) =>
      (match rest.dropWhile jWs with
       | ',' :: rest2 =>
         match jItems fuel rest2 with
         | some (items, rest3) => some (v :: items, rest3)
         | none => none
       | ']' :: rest2 => some ([v], rest2)
       | _ => none)
    | none => none

/-- Comma-separated object members up to the closing brace; a repeated
key keeps the last value, as Python's dict building does. -/
def jMembers (fuel : Nat) (cs : List Char) : Option (List (String × Json) × List Char) :=
  match fuel with
  | 0 => none
  | fuel + 1 =>
    match cs.dropWhile jWs with
    | '"' :: rest =>
      (match jStrTail (rest.length + 1) [] rest with
       | some (k, rest2) =>
         (match rest2.dropWhile jWs with
          | ':' :: rest3 =>
            (match jVal fuel rest3 with
             | some (v, rest4) =>
               (match rest4.dropWhile jWs with
                | ',' :: rest5 =>
                  (match jMembers fuel rest5 with
                   | some (entries, rest6) => some ((k, v) :: entries, rest6)
                   | none => none)
                | '}' :: rest5 => some ([(k, v)], rest5)
                | _ => none)
             | none => none)
          | _ => none)
       | none => none)
    | _ => none

end

/-- Python `json.loads` on a character list: one value, surrounding
whitespace allowed, nothing may trail. -/
def jsonLoadsChars (cs : List Char) : Option Json :=
  match jVal (cs.length + 1) cs with
  | some (v, rest) => if (rest.dropWhile jWs).isEmpty then some v else none
  | none => none

/-! ## JSON-in-text detection (`json_detector.py`) -/

/-- Python regex whitespace class. -/
def isPySpace (c : Char) : Bool :=
  c == ' ' || c == '\t' || c == '\n' || c == '\r' || c == Char.ofNat 11 || c == Char.ofNat 12

/-- Python `str.strip()` (whitespace at both ends). -/
def pyStrip (cs : List Char) : List Char :=
  ((cs.dropWhile isPySpace).reverse.dropWhile isPySpace).reverse

/-- Balanced-bracket prefix extraction (`_extract_balanced_braces`): walk
the text honouring string literals and escapes, returning the prefix up to
the bracket that closes the opening one. -/
def balancedScan (openC closeC : Char) (depth : Int) (inStr escNext : Bool)
    (acc : List Char) (cs : List Char) : Option (List Char) :=
  match cs with
  | [] => none
  | c :: rest =>
    if escNext then balancedScan openC closeC depth inStr false (c :: acc) rest
    else if c == '\\' then balancedScan openC closeC depth inStr true (c :: acc) rest
    else if c == '"' then balancedScan openC closeC depth (!inStr) false (c :: acc) rest
    else if inStr then balancedScan openC closeC depth inStr false (c :: acc) rest
    else if c == openC then balancedScan openC closeC (depth + 1) inStr false (c :: acc) rest
    else if c == closeC then
      if depth - 1 == 0 then some (c :: acc).reverse
      else balancedScan openC closeC (depth - 1) inStr false (c :: acc) rest
    else balancedScan openC closeC depth inStr false (c :: acc) rest

/-- Translation of `_extract_balanced_json(text)`. -/
def extractBalanced (cs : List Char) : Option (List Char) :=
  match cs with
  | '{' :: _ => balancedScan '{' '}' 0 false false [] cs
  | '[' :: _ => balancedScan '[' ']' 0 false false [] cs
  | _ => none

/-- Attempt of strategy 2 at one position: parse to the end, else parse a
truthy balanced prefix (`detect_json_in_text` lines 58-74). -/
def strat2At (cs : List Char) : Option Json :=
  match jsonLoadsChars cs with
  | some v => some v
  | none =>
    match extractBalanced cs with
    | some extracted =>
      if extracted.isEmpty then none
      else jsonLoadsChars extracted
    | none => none

/-- Suffixes of the text that begin right after a newline, in order. -/
def tailsAfterNewline : List Char → List (List Char)
  | [] => []
  | c :: rest => (if c == '\n' then [rest] else []) ++ tailsAfterNewline rest

/-- Suffixes at the positions a multiline `^` matches: position 0 and
after each newline. -/
def lineStartTails (cs : List Char) : List (List Char) :=
  cs :: tailsAfterNewline cs

/-- Scan of the line-start suffixes for strategy 2: positions whose
character is a brace or bracket are tried in order. -/
def strat2Scan : List (List Char) → Option Json
  | [] => none
  | t :: rest =>
    match t with
    | '{' :: _ =>
      (match strat2At t with
       | some v => some v
       | none => strat2Scan rest)
    | '[' :: _ =>
      (match strat2At t with
       | some v => some v
       | none => strat2Scan rest)
    | _ => strat2Scan rest

/-- Strategy 2 of `detect_json_in_text` (lines 58-74). -/
def strat2 (cs : List Char) : Option Json :=
  strat2Scan (lineStartTails cs)

/-- Case-insensitive removal of a literal word at the head. -/
def ciPrefix : List Char → List Char → Option (List Char)
  | [], cs => some cs
  | _ :: _, [] => none
  | k :: ks, c :: cs => if c.toLower == k then ciPrefix ks cs else none

/-- First alternative of a case-insensitive keyword list matching at the
head, in pattern order. -/
def altKw : List String → List Char → Option (List Char)
  | [], _ => none
  | kw :: rest, cs =>
    match ciPrefix kw.toList cs with
    | some r => some r
    | none => altKw rest cs

/-- An optional greedy `(?:word\s+)?` group. -/
def optWord (kw : String) (cs : List Char) : List Char :=
  match ciPrefix kw.toList cs with
  | some r =>
    if (r.takeWhile isPySpace).isEmpty then cs else r.dropWhile isPySpace
  | none => cs

/-- Match of the first prefix pattern
`(?:contents?|response|data|result|output)(?:\s+of[^:]*)?:\s*(.+)` at the
head of the input, returning the capture.  A capture that is entirely
whitespace leads nowhere downstream (it is stripped and then fails the
brace test), so only the whitespace-skipped capture is kept. -/
def pat1At (cs : List Char) : Option (List Char) :=
  let afterKw : Option (List Char) :=
    match ciPrefix "content".toList cs with
    | some r =>
      some (match r with
            | c :: r2 => if c.toLower == 's' then r2 else r
            | [] => r)
    | none => altKw ["response", "data", "result", "output"] cs
  match afterKw with
  | none => none
  | some r =>
    let afterColon : Option (List Char) :=
      if (r.takeWhile isPySpace).isEmpty then
        (match r with
         | ':' :: r5 => some r5
         | _ => none)
      else
        match ciPrefix "of".toList (r.dropWhile isPySpace) with
        | some r3 =>
          (match r3.dropWhile (· != ':') with
           | ':' :: r5 => some r5
           | _ =>
             match r with
             | ':' :: r5 => some r5
             | _ => none)
        | none =>
          (match r with
           | ':' :: r5 => some r5
           | _ => none)
    match afterColon with
    | none => none
    | some r5 =>
      let r6 := r5.dropWhile isPySpace
      if r6.isEmpty then none else some r6

/-- Match of the second prefix pattern
`here\s+is\s+(?:the\s+)?(?:raw\s+)?(?:content|data|response):\s*(.+)` at
the head of the input. -/
def pat2At (cs : List Char) : Option (List Char) :=
  match ciPrefix "here".toList cs with
  | none => none
  | some r1 =>
    if (r1.takeWhile isPySpace).isEmpty then none
    else
      match ciPrefix "is".toList (r1.dropWhile isPySpace) with
      | none => none
      | some r2 =>
        if (r2.takeWhile isPySpace).isEmpty then none
        else
          let r3 := optWord "raw" (optWord "the" (r2.dropWhile isPySpace))
          match altKw ["content", "data", "response"] r3 with
          | none => none
          | some r6 =>
            match r6 with
            | ':' :: r7 =>
              let r8 := r7.dropWhile isPySpace
              if r8.isEmpty then none else some r8
            | _ => none

/-- Leftmost match of a head pattern over the text (`re.search`). -/
def searchPat (patAt : List Char → Option (List Char)) : List (List Char) → Option (List Char)
  | [] => none
  | t :: rest =>
    match patAt t with
    | some cap => some cap
    | none => searchPat patAt rest

/-- Processing of a strategy-3 capture: strip it, require a brace or
bracket, then parse directly or through the balanced extractor. -/
def strat3Process (capture : List Char) : Option Json :=
  let pot := pyStrip capture
  match pot with
  | '{' :: _ => strat2At pot
  | '[' :: _ => strat2At pot
  | _ => none

/-- Strategy 3 of `detect_json_in_text`: the two prefix patterns in
order; a pattern that matches but yields no JSON falls through to the
next. -/
def detectStrat3 (t : List Char) : Option Json :=
  match (searchPat pat1At t.tails).bind strat3Process with
  | some v => some v
  | none => (searchPat pat2At t.tails).bind strat3Process

/-- Translation of `detect_json_in_text(text)`.  A falsy or non-string
input returns `None`; otherwise the stripped text is parsed whole, then
by line-start positions, then by prefix patterns. -/
def detect_json_in_text (tv : Json) : Option Json :=
  match tv with
  | .str s =>
    if s.toList.isEmpty then none
    else
      let t := pyStrip s.toList
      match jsonLoadsChars t with
      | some v => some v
      | none =>
        match strat2 t with
        | some v => some v
        | none => detectStrat3 t
  | _ => none

/-- Translation of `extract_json_from_tool_result(tool_result)`: the
detector applied to the text of the first content item when that item is
of type `text` and its text is truthy. -/
def extract_json_from_tool_result (tr : Json) : Option Json :=
  match tr.objEntries with
  | none => none
  | some es =>
    match entriesGet es "content" with
    | some (.arr (first :: _)) =>
      (match first.objEntries with
       | none => none
       | some fes =>
         if (match entriesGet fes "type" with
             | some (.str "text") => true
             | _ => false) then
           match entriesGet fes "text" with
           | some t => if t.truthy then detect_json_in_text t else none
           | none => none
         else none)
    | _ => none

/-! ## Structured content and the dispatcher tail
(`output_transformer.py` lines 199-240, `mcp_server.py` lines 347-384) -/

/-- Whether a value is a Python `dict` or `list` (the
`isinstance(structured, (dict, list))` test). -/
def Json.isContainer : Json → Bool
  | .obj _ => true
  | .arr _ => true
  | _ => false

/-- Translation of `get_structured_content(tool_result,
enable_json_detection)`: a truthy dict/list under `structuredContent`
wins; otherwise a truthy JSON detection result; otherwise `None`. -/
def get_structured_content (tr : Json) (enableDetect : Bool) : Option Json :=
  match tr.objEntries with
  | none => none
  | some es =>
    let native : Option Json :=
      if entriesHas es "structuredContent" then
        match entriesGet es "structuredContent" with
        | some sc => if sc.truthy && sc.isContainer then some sc else none
        | none => none
      else none
    match native with
    | some sc => some sc
    | none =>
      if enableDetect then
        match extract_json_from_tool_result tr with
        | some jd => if jd.truthy then some jd else none
        | none => none
      else none

/-- One content item of a backend reply, as `call_tool` reads it
(`getattr(c, "type", "text")` and `getattr(c, "text", None)`). -/
structure ContentItem where
  ctype : String
  text : Option String

/-- A backend `CallToolResult` restricted to the fields the dispatcher
tail reads and rebuilds. -/
structure ToolReply where
  content : List ContentItem
  structuredContent : Option Json := none
  isError : Bool := false

/-- The `result_dict` built by `call_tool` lines 349-354: only the
content items' `type` and `text` survive (the reply's own
`structuredContent` is not carried over). -/
def replyDict (res : ToolReply) : Json :=
  .obj [("content", .arr (res.content.map (fun c =>
    .obj [("type", .str c.ctype), ("text", match c.text with
                                           | some s => .str s
                                           | none => .null)])))]

/-- Translation of the transformation tail of `call_tool` (lines
347-384), parametric in the markdown extractor `mdExtract` (the
`markdown_list_parser` module is a component boundary none of the claims
reach into; the theorems below hold for every extractor). -/
def transformTail (mdExtract : String → Json → Option Json)
    (tool : VirtualTool) (res : ToolReply) : ToolReply :=
  if !(optJsonTruthy tool.output_schema || optJsonTruthy tool.text_extraction) then res
  else
    let rdict := replyDict res
    let structured0 := get_structured_content rdict true
    let structured1 : Option Json :=
      if !(optJsonTruthy structured0) && optJsonTruthy tool.text_extraction then
        match (match jGet rdict "content" with
               | some (.arr (first :: _)) => jGet first "text"
               | _ => none) with
        | some (.str s) =>
          if s.toList.isEmpty then structured0
          else
            let parserKind : String :=
              match tool.text_extraction with
              | some te =>
                (match jGet te "parser" with
                 | some (.str p) => p
                 | _ => "")
              | none => ""
            if parserKind == "markdown_numbered_list" || parserKind == "markdown_bullet_list" then
              mdExtract s (tool.text_extraction.getD .null)
            else structured0
        | _ => structured0
      else structured0
    match structured1 with
    | some stru =>
      if stru.truthy then
        let projected : Json :=
          if optJsonTruthy tool.output_schema && stru.objEntries.isSome then
            apply_output_projection stru (tool.output_schema.getD .null)
          else stru
        { content := res.content, structuredContent := some projected, isError := res.isError }
      else res
    | none => res

/-! ## Registry loading (`config_loader.py`, `load_registry_from_file`)

A tool definition carries exactly the keys the loader reads.  The
combined effect type is `Option (Except String α)`: `none` is divergence
(a chain walk that cannot finish), `.error` an uncaught Python exception
aborting the load, `.ok` a normal result.  The walks take fuel; the
loader instantiates it with one more than the number of tools, which is
exhaustive: a chain that takes more hops revisits a tool and therefore
never ends in Python. -/

/-- A tool definition from the registry document (the keys
`load_registry_from_file` reads). -/
structure RegistryTool where
  name : String
  description : Option String := none
  server : Option String := none
  source : Option String := none
  inputSchema : Option Json := none
  defaults : Option Json := none
  originalName : Option String := none
  outputSchema : Option Json := none
  textExtraction : Option Json := none

/-- The `stdio` section of a server definition. -/
structure StdioDef where
  command : Option String := none
  args : List String := []

/-- A server definition from the registry document; `stdio := none`
covers both an absent and a falsy (empty) `stdio` dict. -/
structure ServerDef where
  name : String
  stdio : Option StdioDef := none
  url : Option String := none
  transport : Option String := none
  env : List (String × String) := []
  auth : Option String := none

/-- A registry document (`schemas`, `servers`, `tools`). -/
structure RegistryDoc where
  schemas : List (String × Json) := []
  servers : List ServerDef := []
  tools : List RegistryTool := []

/-- Combined partiality-and-exception result: `none` diverges, `.error`
raises, `.ok` returns. -/
abbrev LoadRes (α : Type) : Type :=
  Option (Except String α)

/-- Bind for `LoadRes`. -/
def oeBind {α β : Type} (x : LoadRes α) (f : α → LoadRes β) : LoadRes β :=
  match x with
  | none => none
  | some (.error e) => some (.error e)
  | some (.ok a) => f a

/-- Pure `LoadRes`. -/
def oePure {α : Type} (a : α) : LoadRes α :=
  some (.ok a)

/-- Raised exception as a `LoadRes`. -/
def oeFail {α : Type} (e : String) : LoadRes α :=
  some (.error e)

/-- A fallible step that cannot diverge. -/
def oeOfExcept {α : Type} : Except String α → LoadRes α :=
  some

/-- Lookup in the `tools_by_name` index (a dict comprehension, so a
repeated name keeps the last definition). -/
def toolByName (tools : List RegistryTool) (n : String) : Option RegistryTool :=
  tools.reverse.find? (fun t => t.name == n)

/-- Assignment into the named-servers dict. -/
def serversSet (es : List (String × ServerConfig)) (k : String) (v : ServerConfig) :
    List (String × ServerConfig) :=
  if es.any (fun kv => kv.1 == k) then
    es.map (fun kv => if kv.1 == k then (k, v) else kv)
  else
    es ++ [(k, v)]

/-- Lookup in the named-servers dict. -/
def serversGet (es : List (String × ServerConfig)) (k : String) : Option ServerConfig :=
  (es.find? (fun kv => kv.1 == k)).map (·.2)

/-- Translation of the `servers` section loop (lines 109-135): a falsy
server name raises; later definitions of the same name overwrite. -/
def buildNamedServers (sds : List ServerDef) : Except String (List (String × ServerConfig)) :=
  sds.foldlM
    (fun acc sd =>
      if sd.name.toList.isEmpty then .error "Server definition missing 'name' field"
      else
        let stdioPair : Option String × List String :=
          match sd.stdio with
          | some sdef => (sdef.command, sdef.args)
          | none => (none, [])
        .ok (serversSet acc sd.name
          { command := stdioPair.1, args := stdioPair.2, url := sd.url,
            transport := sd.transport.getD "sse", env := sortedEnv sd.env,
            auth := sd.auth.getD "none" }))
    []

/-- The step-1 chain walk (lines 154-157):
`while "source" in parent: parent = tools_by_name[parent["source"]]`.
Key presence drives the loop; a missing lookup raises `KeyError`; fuel
exhaustion is divergence. -/
def chainRootByPresence (tbn : String → Option RegistryTool) :
    Nat → RegistryTool → LoadRes RegistryTool
  | fuel, t =>
    match t.source with
    | none => oePure t
    | some s =>
      match fuel with
      | 0 => none
      | fuel + 1 =>
        match tbn s with
        | none => oeFail ("KeyError: " ++ s)
        | some t2 => chainRootByPresence tbn fuel t2

/-- The step-2 chain walk (lines 179-180):
`while source_tool.get("source"): ...` — truthiness drives this one, so
it stops at an empty-string `source`. -/
def chainRootByTruthy (tbn : String → Option RegistryTool) :
    Nat → RegistryTool → LoadRes RegistryTool
  | fuel, t =>
    match t.source with
    | none => oePure t
    | some s =>
      if s.toList.isEmpty then oePure t
      else
        match fuel with
        | 0 => none
        | fuel + 1 =>
          match tbn s with
          | none => oeFail ("KeyError: " ++ s)
          | some t2 => chainRootByTruthy tbn fuel t2

/-- The `original_name` chain walk (lines 261-271): the first explicit
`originalName` wins (whatever its value), else the first tool without a
`source` key contributes its `name`. -/
def chainOriginalName (tbn : String → Option RegistryTool) :
    Nat → RegistryTool → LoadRes (Option String)
  | fuel, t =>
    match t.originalName with
    | some onv => oePure (some onv)
    | none =>
      match t.source with
      | none => oePure (some t.name)
      | some s =>
        match fuel with
        | 0 => none
        | fuel + 1 =>
          match tbn s with
          | none => oeFail ("KeyError: " ++ s)
          | some t2 => chainOriginalName tbn fuel t2

/-- Loading context: the document sections plus the built named servers. -/
structure LoadCtx where
  schemas : List (String × Json)
  namedServers : List (String × ServerConfig)
  toolsData : List RegistryTool

/-- Split on a separator character. -/
def splitOnChar (sep : Char) : List Char → List (List Char)
  | [] => [[]]
  | c :: rest =>
    if c == sep then [] :: splitOnChar sep rest
    else
      match splitOnChar sep rest with
      | [] => [[c]]
      | comp :: comps => (c :: comp) :: comps

/-- Python `s.split("/")`. -/
def splitSlash (s : String) : List String :=
  (splitOnChar '/' s.toList).map (fun cs => String.mk cs)

/-- Python `s.split("/")[-1]`. -/
def lastComponent (s : String) : String :=
  (splitSlash s).getLast!

/-- Translation of the `$ref` block (lines 191-220).  A value without a
dict shape has no `"$ref"` member and passes through; a non-string ref
hits `.startswith` and raises. -/
def resolveSchemaRef (ctx : LoadCtx) (inputSchema : Json) : Except String Json :=
  match jGet inputSchema "$ref" with
  | none => .ok inputSchema
  | some (.str ref) =>
    if "#/schemas/".isPrefixOf ref then
      match entriesGet ctx.schemas (lastComponent ref) with
      | some sch => .ok sch
      | none => .ok inputSchema
    else if "#/tools/".isPrefixOf ref then
      match (splitSlash ref).get? 2 with
      | none => .ok inputSchema
      | some p2 =>
        match pyParseInt p2 with
        | none => .ok inputSchema
        | some idx =>
          if 0 ≤ idx && idx < (ctx.toolsData.length : Int) then
            match ctx.toolsData.get? idx.toNat with
            | none => .ok inputSchema
            | some target =>
              let targetSchema := target.inputSchema.getD (.obj [])
              match jGet targetSchema "$ref" with
              | some (.str tref) =>
                if "#/schemas/".isPrefixOf tref then
                  .ok ((entriesGet ctx.schemas (lastComponent tref)).getD (.obj []))
                else .ok targetSchema
              | some _ => .error "AttributeError: startswith on a non-string $ref"
              | none => .ok targetSchema
          else .ok inputSchema
    else .ok inputSchema
  | some _ => .error "AttributeError: startswith on a non-string $ref"

/-- Python `x.remove(k)` on a list of JSON values for a string `k`
(removes the first equal element; only a string can be equal). -/
def removeFirstStr : List Json → String → List Json
  | [], _ => []
  | j :: rest, k =>
    match j with
    | .str s => if s == k then rest else .str s :: removeFirstStr rest k
    | other => other :: removeFirstStr rest k

/-- Translation of the defaults-hiding block (lines 222-237): with truthy
defaults, each defaulted field is deleted from `properties` and removed
once from `required`, and both keys are written back.  Non-dict shapes
raise where Python's indexing would. -/
def applyDefaults (inputSchema : Json) (defaultsJ : Json) : Except String Json :=
  if !defaultsJ.truthy then .ok inputSchema
  else
    match defaultsJ.objEntries with
    | none => .error "TypeError: non-dict defaults"
    | some defs =>
      match inputSchema.objEntries with
      | none => .error "AttributeError: get on a non-dict schema"
      | some ises =>
        match ((entriesGet ises "properties").getD (.obj [])).objEntries with
        | none => .error "TypeError: non-dict properties"
        | some ps =>
          match (entriesGet ises "required").getD (.arr []) with
          | .arr reqList =>
            let hidden := defs.foldl
              (fun st kv => (entriesDel st.1 kv.1, removeFirstStr st.2 kv.1))
              (ps, reqList)
            .ok (.obj (entriesSet (entriesSet ises "properties" (.obj hidden.1)) "required" (.arr hidden.2)))
          | _ => .error "TypeError: non-list required"

/-- Python `set(x)`: the iterable's elements (a string iterates as
one-character strings, a dict as its keys); a non-iterable raises. -/
def pySetElems : Json → Except String (List Json)
  | .arr l => .ok l
  | .str s => .ok (s.toList.map (fun c => .str (String.mk [c])))
  | .obj es => .ok (es.map (fun kv => Json.str kv.1))
  | _ => .error "TypeError: not iterable"

/-- Python `defaults.keys()` (raises off a non-dict). -/
def defaultsKeysOf : Json → Except String (List String)
  | .obj es => .ok (es.map (·.1))
  | _ => .error "AttributeError: keys on a non-dict"

/-- Translation of the step-4 coverage check (lines 240-247): the root
schema's required fields minus the advertised properties and the default
keys. -/
def coverageMissing (sourceSchema : Json) (inputSchema3 : Json) (defaultsJ : Json) :
    Except String (List Json) :=
  match sourceSchema.objEntries with
  | none => .error "AttributeError: get on a non-dict schema"
  | some ses =>
    match pySetElems ((entriesGet ses "required").getD (.arr [])) with
    | .error e => .error e
    | .ok reqElems =>
      match inputSchema3.objEntries with
      | none => .error "AttributeError: get on a non-dict schema"
      | some ises =>
        match ((entriesGet ises "properties").getD (.obj [])).objEntries with
        | none => .error "AttributeError: keys on a non-dict"
        | some pes =>
          match defaultsKeysOf defaultsJ with
          | .error e => .error e
          | .ok dks =>
            let provided := pes.map (·.1) ++ dks
            .ok (reqElems.filter (fun j =>
              match j with
              | .str s => !(provided.contains s)
              | _ => true))

/-- Step 1 (lines 146-169): resolve the server reference, following the
source chain to its root, and look the reference up among the named
servers. -/
def resolveServerCfg (ctx : LoadCtx) (tbn : String → Option RegistryTool) (fuel : Nat)
    (td : RegistryTool) : LoadRes ServerConfig :=
  let refStep : LoadRes (Option String) :=
    match td.source with
    | some s =>
      if s.toList.isEmpty then oePure td.server
      else
        match tbn s with
        | none => oeFail ("Tool '" ++ td.name ++ "' references unknown source '" ++ s ++ "'")
        | some parent =>
          oeBind (chainRootByPresence tbn fuel parent) (fun root => oePure root.server)
    | none => oePure td.server
  oeBind refStep (fun serverRef =>
    match serverRef with
    | some sr =>
      if sr.toList.isEmpty then
        oeFail ("Tool '" ++ td.name ++ "' has no server reference and no valid source.")
      else
        match serversGet ctx.namedServers sr with
        | some cfg => oePure cfg
        | none => oeFail ("Tool '" ++ td.name ++ "' references unknown server '" ++ sr ++ "'")
    | none => oeFail ("Tool '" ++ td.name ++ "' has no server reference and no valid source."))

/-- Step 2 (lines 171-220): the root's schema for inheritance and
validation, the inherited-or-own schema, and `$ref` resolution.  Returns
the resolved schema and the root's raw schema. -/
def resolveSchemas (ctx : LoadCtx) (tbn : String → Option RegistryTool) (fuel : Nat)
    (td : RegistryTool) : LoadRes (Json × Option Json) :=
  let sisStep : LoadRes (Option Json) :=
    match td.source with
    | some s =>
      if s.toList.isEmpty then oePure none
      else
        match tbn s with
        | none => oeFail ("KeyError: " ++ s)
        | some st =>
          oeBind (chainRootByTruthy tbn fuel st)
            (fun root => oePure (some (root.inputSchema.getD (.obj []))))
    | none => oePure none
  oeBind sisStep (fun sourceIS =>
    let is1 : Json :=
      match td.inputSchema with
      | some isch => isch
      | none =>
        match sourceIS with
        | some sis0 => if sis0.truthy then sis0 else .obj []
        | none => .obj []
    oeBind (oeOfExcept (resolveSchemaRef ctx is1)) (fun is2 => oePure (is2, sourceIS)))

/-- Steps around line 257-271: the effective `original_name`. -/
def resolveOriginalName (tbn : String → Option RegistryTool) (fuel : Nat)
    (td : RegistryTool) : LoadRes (Option String) :=
  if !(optStrTruthy td.originalName) && optStrTruthy td.source then
    match td.source with
    | some s =>
      match tbn s with
      | none => oeFail ("KeyError: " ++ s)
      | some st => chainOriginalName tbn fuel st
    | none => oePure td.originalName
  else oePure td.originalName

/-- Processing of one tool definition: `some (.ok none)` is the
`continue` that drops the tool, `some (.ok (some vt))` an emitted
virtual tool. -/
def processTool (ctx : LoadCtx) (td : RegistryTool) : LoadRes (Option VirtualTool) :=
  let tbn := fun n => toolByName ctx.toolsData n
  let fuel := ctx.toolsData.length + 1
  oeBind (resolveServerCfg ctx tbn fuel td) (fun serverCfg =>
  oeBind (resolveSchemas ctx tbn fuel td) (fun pair =>
  (let is2 := pair.1
   let sourceIS := pair.2
   let defaultsJ := td.defaults.getD (.obj [])
   oeBind (oeOfExcept (applyDefaults is2 defaultsJ)) (fun is3 =>
   oeBind (match sourceIS with
           | some sis0 =>
             if sis0.truthy then oeOfExcept (coverageMissing sis0 is3 defaultsJ) else oePure []
           | none => oePure [])
     (fun missing =>
      if !missing.isEmpty then some (.ok none)
      else
        oeBind (resolveOriginalName tbn fuel td) (fun onF =>
          oePure (some
            { name := td.name, description := td.description, input_schema := is3,
              server_id := serverCfg.id, original_name := onF,
              defaults := defaultsJ.objEntries.getD [],
              output_schema := td.outputSchema, text_extraction := td.textExtraction })))))))

/-- The loop over the tool definitions: an exception aborts, a drop
continues, an emission appends. -/
def loadTools (ctx : LoadCtx) : List RegistryTool → LoadRes (List VirtualTool)
  | [] => oePure []
  | td :: rest =>
    oeBind (processTool ctx td) (fun ovt =>
      oeBind (loadTools ctx rest) (fun vts =>
        oePure (match ovt with
                | some vt => vt :: vts
                | none => vts)))

/-- Translation of `load_registry_from_file` restricted to its observable
output for the claims: the emitted virtual tools (`unique_servers` is a
content-keyed dedup of the same configs and plays no part in which tools
are emitted). -/
def loadRegistry (doc : RegistryDoc) : LoadRes (List VirtualTool) :=
  match buildNamedServers doc.servers with
  | .error e => some (.error e)
  | .ok ns =>
    loadTools { schemas := doc.schemas, namedServers := ns, toolsData := doc.tools } doc.tools

/-- The field names a virtual tool provides: the advertised
`input_schema.properties` keys together with the default keys (the two
sides of the step-4 coverage set). -/
def providedFieldNames (vt : VirtualTool) : List String :=
  (((jGet vt.input_schema "properties").getD (.obj [])).objEntries.getD []).map (·.1)
    ++ vt.defaults.map (·.1)

/-- The coverage-violation predicate of the amended claim C4: the checks
before step 4 succeed, the root schema is truthy, and the missing set is
non-empty. -/
def coverageViolated (ctx : LoadCtx) (td : RegistryTool) : Bool :=
  let tbn := fun n => toolByName ctx.toolsData n
  let fuel := ctx.toolsData.length + 1
  match resolveServerCfg ctx tbn fuel td with
  | some (.ok _) =>
    (match resolveSchemas ctx tbn fuel td with
     | some (.ok (is2, some sis0)) =>
       sis0.truthy &&
       (match applyDefaults is2 (td.defaults.getD (.obj [])) with
        | .ok is3 =>
          (match coverageMissing sis0 is3 (td.defaults.getD (.obj [])) with
           | .ok missing => !missing.isEmpty
           | .error _ => false)
        | .error _ => false)
     | _ => false)
  | _ => false

/-! ## Concrete inputs used by the counterexamples and witnesses -/

/-- A tool whose schema declares an integer property `n` and that hides a
default `k` (claim C2). -/
def exTool2 : VirtualTool :=
  { name := "t", description := none,
    input_schema := .obj [("properties", .obj [("n", .obj [("type", .str "integer")])])],
    server_id := "sid", defaults := [("k", .str "K")] }

/-- Caller arguments for claim C2: the caller passes the digit string
`"7"` for the integer-typed property `n`. -/
def exArgs2 : List (String × Json) :=
  [("n", .str "7")]

/-- The cyclic tools of claim C3: `a` sources `b` and `b` sources `a`. -/
def cycToolA : RegistryTool :=
  { name := "a", source := some "b" }

/-- Second half of the C3 cycle. -/
def cycToolB : RegistryTool :=
  { name := "b", source := some "a" }

/-- A well-formed server definition used by the loader examples. -/
def exServerDef : ServerDef :=
  { name := "s", url := some "http://x" }

/-- A registry document whose source chain is cyclic (claim C3). -/
def cycDoc : RegistryDoc :=
  { servers := [exServerDef], tools := [cycToolA, cycToolB] }

/-- A registry document with one tool whose `source` does not resolve and
one healthy tool (claim C4). -/
def badRefDoc : RegistryDoc :=
  { servers := [exServerDef],
    tools := [{ name := "bad", source := some "nope" },
              { name := "good", server := some "s" }] }

/-- A root tool requiring fields `a` and `b` (claims C4 and C5). -/
def baseTool : RegistryTool :=
  { name := "base", server := some "s",
    inputSchema := some (.obj
      [("properties", .obj [("a", .obj [("type", .str "string")]),
                            ("b", .obj [("type", .str "string")])]),
       ("required", .arr [.str "a", .str "b"])]) }

/-- A sourced tool exposing only `a`, with nothing covering `b`: a
coverage violation (claim C4). -/
def narrowTool : RegistryTool :=
  { name := "narrow", source := some "base",
    inputSchema := some (.obj [("properties", .obj [("a", .obj [("type", .str "string")])])]) }

/-- A sourced tool exposing `a` with a default covering `b` (claim C5). -/
def coveredTool : RegistryTool :=
  { name := "covered", source := some "base",
    inputSchema := some (.obj [("properties", .obj [("a", .obj [("type", .str "string")])])]),
    defaults := some (.obj [("b", .str "B")]) }

/-- A document in which the coverage-violating tool precedes a healthy
root tool (claim C4): the violator is dropped, the load proceeds. -/
def covDoc : RegistryDoc :=
  { servers := [exServerDef], tools := [narrowTool, baseTool] }

/-- A document with a root and a sourced tool whose defaults cover the
missing required field (claim C5). -/
def covOkDoc : RegistryDoc :=
  { servers := [exServerDef], tools := [baseTool, coveredTool] }

/-- The loading context of `covOkDoc`. -/
def covOkCtx : LoadCtx :=
  { schemas := [],
    namedServers := [("s", { url := some "http://x" })],
    toolsData := covOkDoc.tools }

/-- The loading context of `covDoc`. -/
def covCtx : LoadCtx :=
  { schemas := [],
    namedServers := [("s", { url := some "http://x" })],
    toolsData := covDoc.tools }

/-- The virtual tool `loadRegistry covDoc` emits for `base`. -/
def vtBase : VirtualTool :=
  { name := "base", description := none,
    input_schema := .obj
      [("properties", .obj [("a", .obj [("type", .str "string")]),
                            ("b", .obj [("type", .str "string")])]),
       ("required", .arr [.str "a", .str "b"])],
    server_id := "None|()|http://x|sse|[]|none", original_name := none }

/-- The virtual tool `loadRegistry covOkDoc` emits for `covered`. -/
def vtCovered : VirtualTool :=
  { name := "covered", description := none,
    input_schema := .obj
      [("properties", .obj [("a", .obj [("type", .str "string")])]),
       ("required", .arr [])],
    server_id := "None|()|http://x|sse|[]|none", original_name := some "base",
    defaults := [("b", .str "B")] }

/-- Data for the C6 counterexample: a truthy dict whose `items` array is
empty, so a wildcard path matches nothing. -/
def exData6 : Json :=
  .obj [("items", .arr [])]

/-- Output schema for claim C7: a property `p` with a `source_field` and
an object-typed `items` schema with nested properties. -/
def exSchema7 : Json :=
  .obj [("properties", .obj
    [("p", .obj
      [("source_field", .str "$.xs"),
       ("items", .obj
         [("type", .str "object"),
          ("properties", .obj [("y", .obj [("source_field", .str "$.z")])])])])])]

/-- Structured content for claim C7: `xs` is an array whose element is a
number, not an object. -/
def exData7 : Json :=
  .obj [("xs", .arr [.num 1 0])]

/-- A schema holding a `source_field` inside a list inside a list: the
strip traversal never reaches it (claim C9). -/
def exSchema9 : Json :=
  .obj [("a", .arr [.arr [.obj [("source_field", .str "x")]]])]

/-- A tool reply dict whose native `structuredContent` is the empty
object while the first text item carries non-empty JSON (claim C10). -/
def exReply10 : Json :=
  .obj [("structuredContent", .obj []),
        ("content", .arr [.obj [("type", .str "text"),
                                ("text", .str "\x7b\"a\": 1\x7d")]])]

/-- A virtual tool with an output schema and no text extraction, for the
C10 witness. -/
def exTool10 : VirtualTool :=
  { name := "t10", description := none,
    input_schema := .obj [],
    server_id := "sid",
    output_schema := some (.obj [("properties", .obj [("a", .obj [("type", .str "integer")])])]) }

/-- A backend reply with no content items, for the C10 witness. -/
def exReply10b : ToolReply :=
  { content := [] }

/-! ## Theorems -/

/-- C1: the dispatcher's strict-mode check reads `validation_mode`,
`validation_status` and `validation_message` off the tool, and the
validation pass reads and stores the schema hashes, but none of these
fields exists on the `VirtualTool` dataclass of `config_loader.py` — so
the guard is not well-defined for the tools the loader emits (every
access raises `AttributeError`, and the tests that construct
`VirtualTool(validation_mode=...)` cannot run). -/
theorem c1_validation_fields_missing :
    ∀ f ∈ validationFieldNames, f ∉ virtualToolFieldNames := by
  decide

/-- Witness for C1 at the field the dispatcher guard reads first. -/
theorem c1_validation_fields_missing_witness :
    "validation_mode" ∈ validationFieldNames ∧ "validation_mode" ∉ virtualToolFieldNames :=
  ⟨by decide, c1_validation_fields_missing "validation_mode" (by decide)⟩

/-- C3 (counterpart of the claim, which the code violates): on the cyclic
registry `cycDoc` the step-1 source-chain walk never reaches a root for
any fuel, and registry loading diverges instead of failing. -/
theorem c3_cyclic_chain_diverges :
    (∀ fuel, chainRootByPresence (fun n => toolByName cycDoc.tools n) fuel cycToolA = none)
      ∧ loadRegistry cycDoc = none := by
  constructor
  · have key : ∀ fuel,
        chainRootByPresence (fun n => toolByName cycDoc.tools n) fuel cycToolA = none
          ∧ chainRootByPresence (fun n => toolByName cycDoc.tools n) fuel cycToolB = none := by
      intro fuel
      induction fuel with
      | zero => exact ⟨rfl, rfl⟩
      | succ n ih => exact ⟨ih.2, ih.1⟩
    exact fun fuel => (key fuel).1
  · rfl

/-- C2 counterexample: with an integer-typed property `n`, the caller's
string `"7"` is coerced to the number `7`, so the map sent to the backend
is not `args` extended with the defaults — the caller-supplied value
itself changed. -/
theorem c2_counterexample :
    buildFinalArgs exTool2 exArgs2 ≠ mergeDefaults exArgs2 exTool2.defaults
      ∧ entriesGet (buildFinalArgs exTool2 exArgs2) "n" = some (.num 7 0)
      ∧ entriesGet exArgs2 "n" = some (.str "7") := by
  refine ⟨?_, rfl, rfl⟩
  have h1 : buildFinalArgs exTool2 exArgs2 = [("n", .num 7 0), ("k", .str "K")] := rfl
  have h2 : mergeDefaults exArgs2 exTool2.defaults = [("n", .str "7"), ("k", .str "K")] := rfl
  rw [h1, h2]
  simp

/-- C6 counterexample: the path `$.items[*]` contains `[*]` and matches
nothing in `{"items": []}`, yet `extract_value` returns `None`, not the
empty list the claim demands. -/
theorem c6_counterexample :
    hasStarBrkt "$.items[*]".toList = true
      ∧ extract_value exData6 "$.items[*]" = none
      ∧ extract_value exData6 "$.items[*]" ≠ some (.arr []) := by
  refine ⟨rfl, rfl, ?_⟩
  intro h
  have h0 : extract_value exData6 "$.items[*]" = none := rfl
  rw [h0] at h
  exact Option.noConfusion h

/-- C7 counterexample: a `source_field` that selects an array of
non-objects under an object-typed `items` schema projects to a list of
empty objects, one per element — not to the empty list the claim
demands. -/
theorem c7_counterexample :
    apply_output_projection exData7 exSchema7 = .obj [("p", .arr [.obj []])]
      ∧ apply_output_projection exData7 exSchema7 ≠ .obj [("p", .arr [])] := by
  refine ⟨rfl, ?_⟩
  intro h
  have h1 : apply_output_projection exData7 exSchema7 = .obj [("p", .arr [.obj []])] := rfl
  rw [h1] at h
  simp at h

/-- C8 counterexample: the canonical key interpolates `None` and the
string `"None"` identically, so two configs that differ in `command`
share an id — the ids do not separate all behavior-affecting fields. -/
theorem c8_counterexample :
    ServerConfig.id {} = ServerConfig.id { command := some "None" }
      ∧ ({} : ServerConfig).command ≠ ({ command := some "None" } : ServerConfig).command := by
  refine ⟨rfl, ?_⟩
  intro h
  simp at h

/-- C9 counterexample: a `source_field` nested inside a list inside a
list survives `strip_source_fields` untouched, so the result is not free
of `source_field` at every depth. -/
theorem c9_counterexample :
    strip_source_fields exSchema9 = exSchema9
      ∧ hasSFDeep (strip_source_fields exSchema9) = true := by
  exact ⟨rfl, rfl⟩

/-- C10 counterexample: with the native `structuredContent` equal to the
empty object, `get_structured_content` does not return `None` — it falls
through to JSON detection and returns the object parsed from the first
text item. -/
theorem c10_counterexample :
    jGet exReply10 "structuredContent" = some (.obj [])
      ∧ get_structured_content exReply10 true = some (.obj [("a", .num 1 0)])
      ∧ get_structured_content exReply10 true ≠ none := by
  refine ⟨rfl, rfl, ?_⟩
  intro h
  have h1 : get_structured_content exReply10 true = some (.obj [("a", .num 1 0)]) := rfl
  rw [h1] at h
  exact Option.noConfusion h

/-- C4 counterexample: a tool whose `source` does not resolve raises a
`ValueError` that aborts the whole load — the healthy tool `good` is not
emitted and the loader does not return normally, contrary to the claim
that such a violation only drops the offending tool. -/
theorem c4_counterexample :
    loadRegistry badRefDoc = some (.error "Tool 'bad' references unknown source 'nope'")
      ∧ ∀ vts, loadRegistry badRefDoc ≠ some (.ok vts) := by
  refine ⟨rfl, ?_⟩
  intro vts h
  have h1 : loadRegistry badRefDoc
      = some (.error "Tool 'bad' references unknown source 'nope'") := rfl
  rw [h1] at h
  have h2 : (Except.error "Tool 'bad' references unknown source 'nope'"
      : Except String (List VirtualTool)) = .ok vts := by
    injection h
  exact Except.noConfusion h2

instance : IsTotal (String × String) envPairLe := by
  constructor
  intro p q
  unfold envPairLe
  rcases lt_trichotomy p.1 q.1 with h | h | h
  · exact Or.inl (Or.inl h)
  · rcases le_total p.2 q.2 with h2 | h2
    · exact Or.inl (Or.inr ⟨h, h2⟩)
    · exact Or.inr (Or.inr ⟨h.symm, h2⟩)
  · exact Or.inr (Or.inl h)

instance : IsTrans (String × String) envPairLe := by
  constructor
  intro p q u hpq hqu
  unfold envPairLe at *
  rcases hpq with h1 | ⟨h1, h1b⟩
  · rcases hqu with h2 | ⟨h2, _⟩
    · exact Or.inl (h1.trans h2)
    · exact Or.inl (h2 ▸ h1)
  · rcases hqu with h2 | ⟨h2, h2b⟩
    · exact Or.inl (h1 ▸ h2)
    · exact Or.inr ⟨h1.trans h2, h1b.trans h2b⟩

instance : IsAntisymm (String × String) envPairLe := by
  constructor
  intro p q hpq hqp
  unfold envPairLe at *
  rcases hpq with h1 | ⟨h1, h1b⟩
  · rcases hqp with h2 | ⟨h2, _⟩
    · exact absurd (h1.trans h2) (lt_irrefl _)
    · exact absurd h1 (h2 ▸ lt_irrefl _)
  · rcases hqp with h2 | ⟨h2, h2b⟩
    · exact absurd h2 (h1 ▸ lt_irrefl _)
    · exact Prod.ext h1 (le_antisymm h1b h2b)

/-- Two permuted env lists sort to the same list (the sort is with
respect to a total, transitive, antisymmetric order). -/
theorem sortedEnv_congr_perm {l₁ l₂ : List (String × String)} (h : l₁.Perm l₂) :
    sortedEnv l₁ = sortedEnv l₂ :=
  List.eq_of_perm_of_sorted
    ((List.perm_insertionSort envPairLe l₁).trans
      (h.trans (List.perm_insertionSort envPairLe l₂).symm))
    (List.sorted_insertionSort envPairLe l₁)
    (List.sorted_insertionSort envPairLe l₂)

/-- C8 (amended): agreement on `command`, `args`, `url`, `transport`,
`auth`, and on `env` up to order forces equal ids; the converse of the
claim — that ids separate all distinct configs — fails, see the
counterexample. -/
theorem c8_amended (c1 c2 : ServerConfig) (h1 : c1.command = c2.command)
    (h2 : c1.args = c2.args) (h3 : c1.url = c2.url) (h4 : c1.transport = c2.transport)
    (h5 : c1.auth = c2.auth) (h6 : c1.env.Perm c2.env) : c1.id = c2.id := by
  unfold ServerConfig.id serverKey
  rw [h1, h2, h3, h4, h5, sortedEnv_congr_perm h6]

/-- Witness for C8 at two configs whose env lists are permutations of
each other. -/
theorem c8_amended_witness :
    ServerConfig.id { url := some "u", env := [("B", "2"), ("A", "1")] }
      = ServerConfig.id { url := some "u", env := [("A", "1"), ("B", "2")] } :=
  c8_amended _ _ rfl rfl rfl rfl rfl (by decide)

mutual

/-- After a strip pass, no reachable `source_field` remains in entries. -/
theorem reachEntries_stripEntries : ∀ kvs, reachEntries (stripEntries kvs) = false
  | [] => rfl
  | (k, v) :: rest => by
    by_cases hk : k == "source_field"
    · rw [stripEntries, if_pos hk]
      exact reachEntries_stripEntries rest
    · rw [stripEntries, if_neg hk, reachEntries]
      rw [Bool.not_eq_true] at hk
      rw [hk, reachValue_stripValue v, reachEntries_stripEntries rest]
      rfl

/-- After a strip pass, no reachable `source_field` remains in a value. -/
theorem reachValue_stripValue : ∀ v, reachValue (stripValue v) = false
  | .null => rfl
  | .bool _ => rfl
  | .num _ _ => rfl
  | .str _ => rfl
  | .obj kvs => by
    rw [stripValue, reachValue]
    exact reachEntries_stripEntries kvs
  | .arr items => by
    rw [stripValue, reachValue]
    exact reachItems_stripItems items

/-- After a strip pass, no reachable `source_field` remains in items. -/
theorem reachItems_stripItems : ∀ items, reachItems (stripItems items) = false
  | [] => rfl
  | i :: rest => by
    rw [stripItems, reachItems, reachItem_stripItem i, reachItems_stripItems rest]
    rfl

/-- After a strip pass, no reachable `source_field` remains in one item. -/
theorem reachItem_stripItem : ∀ i, reachItem (stripItem i) = false
  | .null => rfl
  | .bool _ => rfl
  | .num _ _ => rfl
  | .str _ => rfl
  | .arr _ => rfl
  | .obj kvs => by
    rw [stripItem, reachItem]
    exact reachEntries_stripEntries kvs

end

mutual

/-- The entry strip pass is idempotent. -/
theorem stripEntries_idem : ∀ kvs, stripEntries (stripEntries kvs) = stripEntries kvs
  | [] => rfl
  | (k, v) :: rest => by
    by_cases hk : k == "source_field"
    · rw [stripEntries, if_pos hk]
      exact stripEntries_idem rest
    · rw [stripEntries, if_neg hk, stripEntries, if_neg hk,
        stripValue_idem v, stripEntries_idem rest]

/-- The value strip pass is idempotent. -/
theorem stripValue_idem : ∀ v, stripValue (stripValue v) = stripValue v
  | .null => rfl
  | .bool _ => rfl
  | .num _ _ => rfl
  | .str _ => rfl
  | .obj kvs => by
    rw [stripValue, stripValue, stripEntries_idem kvs]
  | .arr items => by
    rw [stripValue, stripValue, stripItems_idem items]

/-- The item-list strip pass is idempotent. -/
theorem stripItems_idem : ∀ items, stripItems (stripItems items) = stripItems items
  | [] => rfl
  | i :: rest => by
    rw [stripItems, stripItems, stripItem_idem i, stripItems_idem rest]

/-- The single-item strip pass is idempotent. -/
theorem stripItem_idem : ∀ i, stripItem (stripItem i) = stripItem i
  | .null => rfl
  | .bool _ => rfl
  | .num _ _ => rfl
  | .str _ => rfl
  | .arr _ => rfl
  | .obj kvs => by
    rw [stripItem, stripItem, stripEntries_idem kvs]

end

/-- A falsy value holds no reachable `source_field`. -/
theorem hasSFReach_of_falsy (s : Json) (h : s.truthy = false) : hasSFReach s = false := by
  cases s with
  | obj l =>
    cases l with
    | nil => rfl
    | cons kv rest => simp [Json.truthy] at h
  | null => rfl
  | bool b => rfl
  | num m e => rfl
  | str s => rfl
  | arr l => rfl

/-- The recursive strip leaves no reachable `source_field`. -/
theorem hasSFReach_stripRec (s : Json) : hasSFReach (stripRec s) = false := by
  cases s with
  | obj kvs =>
    rw [stripRec, hasSFReach]
    exact reachEntries_stripEntries kvs
  | null => rfl
  | bool b => rfl
  | num m e => rfl
  | str s => rfl
  | arr l => rfl

/-- The recursive strip is idempotent. -/
theorem stripRec_idem (s : Json) : stripRec (stripRec s) = stripRec s := by
  cases s with
  | obj kvs =>
    rw [stripRec, stripRec, stripEntries_idem kvs]
  | null => rfl
  | bool b => rfl
  | num m e => rfl
  | str s => rfl
  | arr l => rfl

/-- C9 (amended): `strip_source_fields` leaves no `source_field` at any
position its traversal visits (every dict value, and dicts directly
inside a list value; a dict buried under two list levels is out of its
reach, see the counterexample), it is idempotent, and — the model being
pure over a deep copy — the input is unmodified. -/
theorem c9_amended (s : Json) :
    hasSFReach (strip_source_fields s) = false
      ∧ strip_source_fields (strip_source_fields s) = strip_source_fields s := by
  unfold strip_source_fields
  by_cases ht : s.truthy
  · rw [ht]
    simp only [Bool.not_true, Bool.false_eq_true, if_false]
    constructor
    · exact hasSFReach_stripRec s
    · by_cases ht2 : (stripRec s).truthy
      · rw [ht2]
        simp only [Bool.not_true, Bool.false_eq_true, if_false]
        exact stripRec_idem s
      · rw [Bool.not_eq_true] at ht2
        rw [ht2]
        simp
  · rw [Bool.not_eq_true] at ht
    rw [ht]
    simp only [Bool.not_false, if_true]
    exact ⟨hasSFReach_of_falsy s ht, by rw [ht]; simp⟩

/-- Witness for C9 (no hypotheses in the theorem itself; evaluated at the
projection schema of the C7 example, which carries `source_field`s at two
depths). -/
theorem c9_amended_witness :
    hasSFReach (strip_source_fields exSchema7) = false
      ∧ strip_source_fields (strip_source_fields exSchema7) = strip_source_fields exSchema7 :=
  c9_amended exSchema7

/-- Unfolding of a lookup at a cons cell. -/
theorem entriesGet_cons (a : String) (b : Json) (l : List (String × Json)) (k : String) :
    entriesGet ((a, b) :: l) k = if a == k then some b else entriesGet l k := by
  by_cases h : a == k
  · simp [entriesGet, List.find?, h]
  · simp only [Bool.not_eq_true] at h
    simp [entriesGet, List.find?, h]

/-- Unfolding of a key test at a cons cell. -/
theorem entriesHas_cons (a : String) (b : Json) (l : List (String × Json)) (k : String) :
    entriesHas ((a, b) :: l) k = (a == k || entriesHas l k) := by
  simp [entriesHas, List.any_cons]

/-- A lookup that succeeds on the left part of an append succeeds on the
whole. -/
theorem entriesGet_append_left (k : String) (v : Json) :
    ∀ acc l, entriesGet acc k = some v → entriesGet (acc ++ l) k = some v
  | [], _, h => by simp [entriesGet, List.find?] at h
  | (a, b) :: rest, l, h => by
    rw [entriesGet_cons] at h
    by_cases ha : a == k
    · rw [if_pos ha] at h
      rw [List.cons_append, entriesGet_cons, if_pos ha]
      exact h
    · rw [if_neg ha] at h
      rw [List.cons_append, entriesGet_cons, if_neg ha]
      exact entriesGet_append_left k v rest l h

/-- A lookup for an absent key finds a binding appended at the end. -/
theorem entriesGet_append_absent (k : String) (v : Json) :
    ∀ acc, entriesHas acc k = false → entriesGet (acc ++ [(k, v)]) k = some v
  | [], _ => by simp [entriesGet, List.find?]
  | (a, b) :: rest, h => by
    rw [entriesHas_cons, Bool.or_eq_false_iff] at h
    rw [List.cons_append, entriesGet_cons, if_neg (by simp [h.1])]
    exact entriesGet_append_absent k v rest h.2

/-- A key test over an append. -/
theorem entriesHas_append (k : String) :
    ∀ acc l, entriesHas (acc ++ l) k = (entriesHas acc k || entriesHas l k) := by
  intro acc l
  simp [entriesHas]

/-- The coercion pass rewrites each binding pointwise. -/
theorem entriesGet_coerceArgs (p : Json) (k : String) :
    ∀ m, entriesGet (coerceArgs p m) k = (entriesGet m k).map (coerceValue p k)
  | [] => rfl
  | (k0, v0) :: rest => by
    by_cases hk : k0 == k
    · have hkeq : k0 = k := by
        simpa using hk
      subst hkeq
      rw [coerceArgs, List.map_cons, entriesGet_cons, if_pos hk,
        entriesGet_cons, if_pos hk]
      rfl
    · rw [coerceArgs, List.map_cons, entriesGet_cons, if_neg hk,
        entriesGet_cons, if_neg hk]
      exact entriesGet_coerceArgs p k rest

/-- The coercion pass preserves the key list. -/
theorem entriesKeys_coerceArgs (p : Json) (m : List (String × Json)) :
    entriesKeys (coerceArgs p m) = entriesKeys m := by
  simp [coerceArgs, entriesKeys]

/-- Defaults injection never changes an existing binding. -/
theorem entriesGet_mergeDefaults_present (k : String) (v : Json) :
    ∀ ds acc, entriesGet acc k = some v → entriesGet (mergeDefaults acc ds) k = some v
  | [], _, h => h
  | d :: rest, acc, h => by
    rw [mergeDefaults, List.foldl_cons]
    by_cases hd : entriesHas acc d.1
    · rw [if_pos hd]
      exact entriesGet_mergeDefaults_present k v rest acc h
    · rw [if_neg hd]
      exact entriesGet_mergeDefaults_present k v rest (acc ++ [d])
        (entriesGet_append_left k v acc [d] h)

/-- Defaults injection binds an absent key to its first default value. -/
theorem entriesGet_mergeDefaults_absent (k : String) (v : Json) :
    ∀ ds acc, entriesHas acc k = false → entriesGet ds k = some v →
      entriesGet (mergeDefaults acc ds) k = some v
  | [], _, _, hds => by simp [entriesGet, List.find?] at hds
  | (dk, dv) :: rest, acc, hacc, hds => by
    rw [entriesGet_cons] at hds
    rw [mergeDefaults, List.foldl_cons]
    by_cases hk : dk == k
    · rw [if_pos hk] at hds
      have hkeq : dk = k := by simpa using hk
      subst hkeq
      rw [if_neg (by simp [hacc])]
      have hv : entriesGet (acc ++ [(dk, dv)]) dk = some dv :=
        entriesGet_append_absent dk dv acc hacc
      rw [← hds]
      exact entriesGet_mergeDefaults_present dk dv rest (acc ++ [(dk, dv)]) hv
    · rw [if_neg hk] at hds
      by_cases hd : entriesHas acc dk
      · rw [if_pos hd]
        exact entriesGet_mergeDefaults_absent k v rest acc hacc hds
      · rw [if_neg hd]
        have hacc2 : entriesHas (acc ++ [(dk, dv)]) k = false := by
          rw [entriesHas_append, hacc, entriesHas_cons]
          simp only [entriesHas, List.any_nil]
          simpa using hk
        exact entriesGet_mergeDefaults_absent k v rest (acc ++ [(dk, dv)]) hacc2 hds

/-- The key list after defaults injection: the original keys followed by
the default keys not already present (default keys assumed unique, as
they come from a dict). -/
theorem entriesKeys_mergeDefaults :
    ∀ ds acc, (ds.map Prod.fst).Nodup →
      entriesKeys (mergeDefaults acc ds)
        = entriesKeys acc ++ (ds.map Prod.fst).filter (fun k => !(entriesHas acc k))
  | [], acc, _ => by simp [mergeDefaults, entriesKeys]
  | (dk, dv) :: rest, acc, hnd => by
    rw [List.map_cons, List.nodup_cons] at hnd
    rw [mergeDefaults, List.foldl_cons, List.map_cons, List.filter_cons]
    by_cases hd : entriesHas acc dk
    · rw [if_pos hd]
      simp only [hd, Bool.not_true, Bool.false_eq_true, if_false]
      exact entriesKeys_mergeDefaults rest acc hnd.2
    · rw [if_neg hd]
      simp only [hd, Bool.not_false, if_true]
      have ih := entriesKeys_mergeDefaults rest (acc ++ [(dk, dv)]) hnd.2
      rw [mergeDefaults] at ih
      rw [ih]
      have hkeys : entriesKeys (acc ++ [(dk, dv)]) = entriesKeys acc ++ [dk] := by
        simp [entriesKeys]
      have hfil : (rest.map Prod.fst).filter (fun k => !(entriesHas (acc ++ [(dk, dv)]) k))
          = (rest.map Prod.fst).filter (fun k => !(entriesHas acc k)) := by
        apply List.filter_congr
        intro k hk
        have hne : dk ≠ k := by
          intro he
          exact hnd.1 (he ▸ hk)
        rw [entriesHas_append, entriesHas_cons]
        simp only [entriesHas, List.any_nil, Bool.or_false]
        have : (dk == k) = false := by
          simpa using hne
        rw [this]
        simp
      rw [hkeys, hfil, List.append_assoc]
      rfl

/-- C2 (amended): the map sent to the backend is the defaults-extension
of the caller arguments followed by the schema-driven string-to-number
coercion pass: its keys are exactly the caller keys plus the absent
default keys, a caller key is never overwritten by a default (though its
string value may be coerced to a number per the schema), an absent
defaulted key carries its (possibly coerced) default value, and the
backend name is `original_name` when that is set and non-empty, else
`name`. -/
theorem c2_amended (tool : VirtualTool) (args : List (String × Json))
    (hdef : (tool.defaults.map Prod.fst).Nodup) :
    entriesKeys (buildFinalArgs tool args)
        = entriesKeys args ++ (tool.defaults.map Prod.fst).filter (fun k => !(entriesHas args k))
      ∧ (∀ k v, entriesGet args k = some v →
          entriesGet (buildFinalArgs tool args) k
            = some (coerceValue (schemaPropsOf tool) k v))
      ∧ (∀ k v, entriesHas args k = false → entriesGet tool.defaults k = some v →
          entriesGet (buildFinalArgs tool args) k
            = some (coerceValue (schemaPropsOf tool) k v))
      ∧ (optStrTruthy tool.original_name = true →
          targetName tool = tool.original_name.getD tool.name)
      ∧ (optStrTruthy tool.original_name = false → targetName tool = tool.name) := by
  refine ⟨?_, ?_, ?_, ?_, ?_⟩
  · rw [buildFinalArgs, entriesKeys_coerceArgs]
    exact entriesKeys_mergeDefaults tool.defaults args hdef
  · intro k v h
    rw [buildFinalArgs, entriesGet_coerceArgs,
      entriesGet_mergeDefaults_present k v tool.defaults args h]
    rfl
  · intro k v habs h
    rw [buildFinalArgs, entriesGet_coerceArgs,
      entriesGet_mergeDefaults_absent k v tool.defaults args habs h]
    rfl
  · intro h
    cases hon : tool.original_name with
    | none => rw [hon] at h; simp [optStrTruthy] at h
    | some s =>
      rw [hon] at h
      simp only [optStrTruthy, Bool.not_eq_eq_eq_not, Bool.not_true] at h
      have hred : targetName tool = pyOrStr (some s) tool.name := by
        rw [targetName, hon]
      have hval : pyOrStr (some s) tool.name
          = if s.toList.isEmpty then tool.name else s := rfl
      rw [hred, hval, show s.toList.isEmpty = false by simpa using h]
      simp
  · intro h
    cases hon : tool.original_name with
    | none =>
      have hred : targetName tool = pyOrStr none tool.name := by
        rw [targetName, hon]
      rw [hred]
      rfl
    | some s =>
      rw [hon] at h
      simp only [optStrTruthy] at h
      have hred : targetName tool = pyOrStr (some s) tool.name := by
        rw [targetName, hon]
      have hval : pyOrStr (some s) tool.name
          = if s.toList.isEmpty then tool.name else s := rfl
      rw [hred, hval, show s.toList.isEmpty = true by simpa using h]
      simp

/-- Witness for C2: the defaulted key `k`, absent from the caller
arguments, reaches the backend with its default value. -/
theorem c2_amended_witness :
    entriesGet (buildFinalArgs exTool2 exArgs2) "k"
      = some (coerceValue (schemaPropsOf exTool2) "k" (.str "K")) :=
  (c2_amended exTool2 exArgs2 (by decide)).2.2.1 "k" (.str "K") (by decide) rfl

/-- A suffix of a text without `[*]` is without `[*]`. -/
theorem hasStarBrkt_suffix_false :
    ∀ cs : List Char, hasStarBrkt cs = false → ∀ s, s <:+ cs → hasStarBrkt s = false := by
  intro cs
  induction cs with
  | nil =>
    intro _ s hs
    rw [List.suffix_nil] at hs
    rw [hs]
    rfl
  | cons c rest ih =>
    intro h s hs
    rw [hasStarBrkt, Bool.or_eq_false_iff] at h
    rcases List.suffix_cons_iff.mp hs with he | ht
    · rw [he, hasStarBrkt, Bool.or_eq_false_iff]
      exact ⟨h.1, h.2⟩
    · exact ih h.2 s ht

/-- The step parser never produces a wildcard from a text without the
substring `[*]`. -/
theorem parseSteps_no_wild :
    ∀ fuel cs steps, hasStarBrkt cs = false → parseSteps fuel cs = some steps →
      ∀ st ∈ steps, st ≠ PathStep.wild := by
  intro fuel
  induction fuel with
  | zero =>
    intro cs steps _ hp
    rw [parseSteps] at hp
    exact absurd hp (by simp)
  | succ n ih =>
    intro cs steps h hp
    cases cs with
    | nil =>
      rw [parseSteps] at hp
      simp only [Option.some.injEq] at hp
      rw [← hp]
      intro st hst
      exact absurd hst (List.not_mem_nil st)
    | cons c rest =>
      rw [parseSteps] at hp
      rw [hasStarBrkt, Bool.or_eq_false_iff] at h
      simp only at hp
      by_cases hdot : c == '.'
      · rw [if_pos hdot] at hp
        by_cases hname : ((rest.takeWhile identChar).isEmpty
            || !identStart (rest.takeWhile identChar).head!) = true
        · rw [if_pos hname] at hp
          exact absurd hp (by simp)
        · rw [if_neg hname] at hp
          match hrec : parseSteps n (rest.dropWhile identChar) with
          | none => rw [hrec] at hp; exact absurd hp (by simp)
          | some steps2 =>
            rw [hrec] at hp
            simp only [Option.map_some', Option.some.injEq] at hp
            rw [← hp]
            intro st hst
            rcases List.mem_cons.mp hst with he | hm
            · rw [he]; intro hw; exact PathStep.noConfusion hw
            · have hdrop : hasStarBrkt (rest.dropWhile identChar) = false :=
                hasStarBrkt_suffix_false rest h.2 _ (List.dropWhile_suffix identChar)
              exact ih (rest.dropWhile identChar) steps2 hdrop hrec st hm
      · rw [if_neg hdot] at hp
        by_cases hbr : c == '['
        · rw [if_pos hbr] at hp
          rw [if_neg (by simp [h.1])] at hp
          match hrest2 : rest.dropWhile (·.isDigit) with
          | [] => rw [hrest2] at hp; exact absurd hp (by simp)
          | c2 :: rest3 =>
            rw [hrest2] at hp
            dsimp only at hp
            by_cases hc2 : (c2 == ']' && !(rest.takeWhile (·.isDigit)).isEmpty) = true
            · rw [if_pos hc2] at hp
              match hrec : parseSteps n rest3 with
              | none => rw [hrec] at hp; exact absurd hp (by simp)
              | some steps2 =>
                rw [hrec] at hp
                simp only [Option.map_some', Option.some.injEq] at hp
                rw [← hp]
                intro st hst
                rcases List.mem_cons.mp hst with he | hm
                · rw [he]; intro hw; exact PathStep.noConfusion hw
                · have hstep : rest.dropWhile (·.isDigit) <:+ rest :=
                    List.dropWhile_suffix (fun x : Char => x.isDigit)
                  rw [hrest2] at hstep
                  have hsfx : rest3 <:+ rest :=
                    List.IsSuffix.trans (List.suffix_cons c2 rest3) hstep
                  have hdrop : hasStarBrkt rest3 = false :=
                    hasStarBrkt_suffix_false rest h.2 rest3 hsfx
                  exact ih rest3 steps2 hdrop hrec st hm
            · rw [if_neg hc2] at hp
              exact absurd hp (by simp)
        · rw [if_neg hbr] at hp
          exact absurd hp (by simp)

/-- A parsed path without the substring `[*]` holds no wildcard step. -/
theorem parsePath_no_wild (path : String) (steps : List PathStep)
    (hstar : hasStarBrkt path.toList = false) (hp : parsePath path = some steps) :
    ∀ st ∈ steps, st ≠ PathStep.wild := by
  rw [parsePath] at hp
  cases hcs : path.toList with
  | nil => rw [hcs, parsePathChars] at hp; exact absurd hp (by simp)
  | cons c rest =>
    rw [hcs] at hp hstar
    rw [parsePathChars] at hp
    by_cases hd : c == '$'
    · rw [if_pos hd] at hp
      have htail : hasStarBrkt rest = false := by
        rw [hasStarBrkt, Bool.or_eq_false_iff] at hstar
        exact hstar.2
      exact parseSteps_no_wild (rest.length + 1) rest steps htail hp
    · rw [if_neg hd] at hp
      by_cases hid : identStart c
      · rw [if_pos hid] at hp
        match hrec : parseSteps (((c :: rest).dropWhile identChar).length + 1)
            ((c :: rest).dropWhile identChar) with
        | none => rw [hrec] at hp; exact absurd hp (by simp)
        | some steps2 =>
          rw [hrec] at hp
          simp only [Option.map_some', Option.some.injEq] at hp
          rw [← hp]
          intro st hst
          rcases List.mem_cons.mp hst with he | hm
          · rw [he]; intro hw; exact PathStep.noConfusion hw
          · have hdrop : hasStarBrkt ((c :: rest).dropWhile identChar) = false :=
              hasStarBrkt_suffix_false (c :: rest) hstar _ (List.dropWhile_suffix identChar)
            exact parseSteps_no_wild _ _ steps2 hdrop hrec st hm
      · rw [if_neg hid] at hp
        exact absurd hp (by simp)

/-- A non-wildcard step matches at most one value. -/
theorem evalStep_len (st : PathStep) (hw : st ≠ PathStep.wild) (j : Json) :
    (evalStep st j).length ≤ 1 := by
  cases st with
  | wild => exact absurd rfl hw
  | field k =>
    cases j with
    | obj es =>
      rw [evalStep]
      cases entriesGet es k with
      | none => simp
      | some v => simp
    | null => simp [evalStep]
    | bool b => simp [evalStep]
    | num m e => simp [evalStep]
    | str s => simp [evalStep]
    | arr l => simp [evalStep]
  | index i =>
    cases j with
    | arr l =>
      rw [evalStep]
      cases l.get? i with
      | none => simp
      | some v => simp
    | null => simp [evalStep]
    | bool b => simp [evalStep]
    | num m e => simp [evalStep]
    | str s => simp [evalStep]
    | obj es => simp [evalStep]

/-- Folding non-wildcard steps keeps at most one match. -/
theorem foldl_eval_len :
    ∀ steps : List PathStep, (∀ st ∈ steps, st ≠ PathStep.wild) →
      ∀ ms : List Json, ms.length ≤ 1 →
        (steps.foldl (fun ms2 st => ms2.flatMap (evalStep st)) ms).length ≤ 1
  | [], _, ms, hms => by simpa using hms
  | st :: rest, h, ms, hms => by
    rw [List.foldl_cons]
    apply foldl_eval_len rest (fun s hs => h s (List.mem_cons_of_mem st hs))
    match ms, hms with
    | [], _ => simp
    | [v], _ =>
      simpa using evalStep_len st (h st (List.mem_cons_self st rest)) v

/-- A star-free path of the modelled grammar matches at most one value. -/
theorem evalPath_no_wild_len (steps : List PathStep)
    (h : ∀ st ∈ steps, st ≠ PathStep.wild) (j : Json) :
    (evalPath steps j).length ≤ 1 :=
  foldl_eval_len steps h [j] (by simp)

/-- C6 (amended): an unparseable path yields `None`; a parseable path
with `[*]` yields the flat list of matches when at least one value
matches and `None` — not the empty list — when nothing matches; a
parseable path without `[*]` matches at most once and yields the single
matched value (`None` both when nothing matches and when the matched
value is itself JSON `null`, which Python cannot distinguish from a
miss). -/
theorem c6_amended :
    (∀ data path, parsePath path = none → extract_value data path = none)
      ∧ (∀ data path steps, parsePath path = some steps → path.toList.isEmpty = false →
          data.truthy = true →
          (hasStarBrkt path.toList = true →
            (evalPath steps data = [] → extract_value data path = none)
              ∧ ∀ v ms, evalPath steps data = v :: ms →
                  extract_value data path = some (.arr (v :: ms)))
            ∧ (hasStarBrkt path.toList = false →
                (evalPath steps data).length ≤ 1
                  ∧ (evalPath steps data = [] → extract_value data path = none)
                  ∧ ∀ v, evalPath steps data = [v] →
                      extract_value data path
                        = (match v with | .null => none | _ => some v))) := by
  constructor
  · intro data path hp
    rw [extract_value]
    by_cases hg : (path.toList.isEmpty || !data.truthy) = true
    · rw [if_pos hg]
    · rw [if_neg hg, hp]
  · intro data path steps hp hne htr
    have hg : (path.toList.isEmpty || !data.truthy) = false := by
      rw [hne, htr]
      rfl
    constructor
    · intro hstar
      constructor
      · intro hev
        rw [extract_value, if_neg (by rw [hg]; simp), hp]
        dsimp only
        rw [hev]
      · intro v ms hev
        rw [extract_value, if_neg (by rw [hg]; simp), hp]
        dsimp only
        rw [hev]
        cases ms with
        | nil => rw [hstar]; rfl
        | cons v2 t => rfl
    · intro hstar
      refine ⟨evalPath_no_wild_len steps (parsePath_no_wild path steps hstar hp) data, ?_, ?_⟩
      · intro hev
        rw [extract_value, if_neg (by rw [hg]; simp), hp]
        dsimp only
        rw [hev]
      · intro v hev
        rw [extract_value, if_neg (by rw [hg]; simp), hp]
        dsimp only
        rw [hev, hstar]
        rfl

/-- Witness for C6: a parseable star-free path applied to a matching
document returns the single matched value. -/
theorem c6_amended_witness :
    extract_value (.obj [("a", .num 1 0)]) "$.a" = some (.num 1 0) :=
  ((c6_amended.2 (.obj [("a", .num 1 0)]) "$.a" [PathStep.field "a"] rfl rfl rfl).2
    rfl).2.2 (.num 1 0) rfl

/-- C7 (amended): a non-object element of a selected array contributes
the empty object to the projected list (one entry per element — the list
is not emptied, see the counterexample); the array branch projects each
element through the nested `items` properties; and a top-level property
whose `source_field` path does not match is omitted entirely from the
projected object, never set to `null`. -/
theorem c7_amended :
    (∀ props e, e.objEntries = none → projElement props e = .obj [])
      ∧ (∀ structured fname fes sf itemsJ elems rest,
          entriesGet fes "source_field" = some (.str sf) → sf.toList.isEmpty = false →
          entriesGet fes "items" = some itemsJ → isObjectItems itemsJ = true →
          extract_value structured sf = some (.arr elems) →
          projectProps structured ((fname, .obj fes) :: rest)
            = (fname, .arr (elems.map (projElement ((jGet itemsJ "properties").getD (.obj [])))))
                :: projectProps structured rest)
      ∧ (∀ structured fname fes sf rest,
          entriesGet fes "source_field" = some (.str sf) → sf.toList.isEmpty = false →
          extract_value structured sf = none →
          projectProps structured ((fname, .obj fes) :: rest) = projectProps structured rest) := by
  refine ⟨?_, ?_, ?_⟩
  · intro props e he
    rw [projElement, he]
  · intro structured fname fes sf itemsJ elems rest hsf hne hitems hobj hx
    rw [projectProps]
    simp only [Json.objEntries, hsf, hne, hitems, hobj, hx, Bool.false_eq_true,
      if_false, if_true]
  · intro structured fname fes sf rest hsf hne hx
    rw [projectProps]
    cases hitems : entriesGet fes "items" with
    | none =>
      simp only [Json.objEntries, hsf, hne, hitems, hx, Bool.false_eq_true, if_false]
    | some itemsJ =>
      by_cases hobj : isObjectItems itemsJ = true
      · simp only [Json.objEntries, hsf, hne, hitems, hobj, hx, Bool.false_eq_true,
          if_false, if_true]
      · rw [Bool.not_eq_true] at hobj
        simp only [Json.objEntries, hsf, hne, hitems, hobj, hx, Bool.false_eq_true,
          if_false]

/-- Witness for C7: the projection of the counterexample data through
the counterexample schema, assembled from the amended theorem's array
branch and element rule. -/
theorem c7_amended_witness :
    projElement (.obj [("y", .obj [("source_field", .str "$.z")])]) (.num 1 0) = .obj []
      ∧ projectProps exData7
          [("p", .obj
            [("source_field", .str "$.xs"),
             ("items", .obj
               [("type", .str "object"),
                ("properties", .obj [("y", .obj [("source_field", .str "$.z")])])])])]
          = [("p", .arr [.obj []])] :=
  ⟨c7_amended.1 (.obj [("y", .obj [("source_field", .str "$.z")])]) (.num 1 0) rfl,
   by
    rw [c7_amended.2.1 exData7 "p"
      [("source_field", .str "$.xs"),
       ("items", .obj
         [("type", .str "object"),
          ("properties", .obj [("y", .obj [("source_field", .str "$.z")])])])]
      "$.xs"
      (.obj [("type", .str "object"),
             ("properties", .obj [("y", .obj [("source_field", .str "$.z")])])])
      [.num 1 0] [] rfl rfl rfl rfl rfl]
    rfl⟩

/-- The key test is the success of the lookup. -/
theorem entriesHas_eq_isSome (es : List (String × Json)) (k : String) :
    entriesHas es k = (entriesGet es k).isSome := by
  induction es with
  | nil => rfl
  | cons kv rest ih =>
    rw [entriesHas, List.any_cons]
    cases kv with
    | mk a b =>
      rw [entriesGet_cons]
      by_cases ha : a == k
      · rw [if_pos ha]
        simp [ha]
      · rw [if_neg ha]
        simp only [Bool.not_eq_true] at ha
        rw [ha, Bool.false_or]
        exact ih

/-- C10 (amended): an empty (or otherwise falsy or non-container)
candidate at either stage is treated as no structured content at that
stage and the pipeline falls through — `get_structured_content` returns
`None` exactly when the native `structuredContent` holds no truthy
dict or list and JSON detection yields nothing truthy; `call_tool` then
returns the backend reply verbatim provided the markdown fallback also
yields nothing truthy (with a truthy markdown extraction it transforms
the reply instead). -/
theorem c10_amended :
    (∀ tr : Json, tr.objEntries = none → get_structured_content tr true = none)
      ∧ (∀ tr es, tr.objEntries = some es →
          (get_structured_content tr true = none ↔
            ((match entriesGet es "structuredContent" with
              | some sc => sc.truthy && sc.isContainer
              | none => false) = false
              ∧ optJsonTruthy (extract_json_from_tool_result tr) = false)))
      ∧ (∀ (mdExtract : String → Json → Option Json) (tool : VirtualTool) (res : ToolReply),
          get_structured_content (replyDict res) true = none →
          (∀ s cfg v, mdExtract s cfg = some v → v.truthy = false) →
          transformTail mdExtract tool res = res) := by
  refine ⟨?_, ?_, ?_⟩
  · intro tr h
    rw [get_structured_content, h]
  · intro tr es h
    rw [get_structured_content, h]
    dsimp only
    rw [entriesHas_eq_isSome]
    cases hn : entriesGet es "structuredContent" with
    | none =>
      cases hx : extract_json_from_tool_result tr with
      | none => simp [hn, hx, optJsonTruthy]
      | some jd =>
        by_cases hjd : jd.truthy = true
        · simp [hn, hx, optJsonTruthy, hjd]
        · rw [Bool.not_eq_true] at hjd
          simp [hn, hx, optJsonTruthy, hjd]
    | some sc =>
      by_cases hc : (sc.truthy && sc.isContainer) = true
      · simp [hn, hc]
      · rw [Bool.not_eq_true] at hc
        cases hx : extract_json_from_tool_result tr with
        | none => simp [hn, hx, hc, optJsonTruthy]
        | some jd =>
          by_cases hjd : jd.truthy = true
          · simp [hn, hx, optJsonTruthy, hc, hjd]
          · rw [Bool.not_eq_true] at hjd
            simp [hn, hx, optJsonTruthy, hc, hjd]
  · intro mdExtract tool res hget hmd
    rw [transformTail]
    by_cases hcond : (!(optJsonTruthy tool.output_schema || optJsonTruthy tool.text_extraction)) = true
    · rw [if_pos hcond]
    · rw [if_neg hcond]
      dsimp only
      rw [hget]
      simp only [optJsonTruthy, Bool.not_false, Bool.true_and]
      split
      · rename_i stru heq
        have hfalse : stru.truthy = false := by
          split at heq
          · split at heq
            · split at heq
              · simp at heq
              · split at heq
                · exact hmd _ _ stru heq
                · simp at heq
            · simp at heq
          · simp at heq
        rw [hfalse]
        simp
      · rfl

/-- Witness for C10: a reply with no content and an output schema comes
back verbatim. -/
theorem c10_amended_witness :
    transformTail (fun _ _ => none) exTool10 exReply10b = exReply10b :=
  c10_amended.2.2 (fun _ _ => none) exTool10 exReply10b rfl
    (fun _ _ _v hv => Option.noConfusion hv)

/-- An emitted virtual tool comes from the successful processing of some
tool definition of the list. -/
theorem loadTools_mem_processTool (ctx : LoadCtx) :
    ∀ tds vts, loadTools ctx tds = some (.ok vts) →
      ∀ vt ∈ vts, ∃ td ∈ tds, processTool ctx td = some (.ok (some vt)) := by
  intro tds
  induction tds with
  | nil =>
    intro vts h vt hvt
    rw [loadTools] at h
    simp only [oePure, Option.some.injEq, Except.ok.injEq] at h
    rw [← h] at hvt
    exact absurd hvt (List.not_mem_nil vt)
  | cons td rest ih =>
    intro vts h vt hvt
    rw [loadTools] at h
    cases hp : processTool ctx td with
    | none => rw [hp] at h; simp [oeBind] at h
    | some r =>
      cases r with
      | error e => rw [hp] at h; simp [oeBind] at h
      | ok ovt =>
        rw [hp] at h
        simp only [oeBind] at h
        cases hr : loadTools ctx rest with
        | none => rw [hr] at h; simp [oeBind] at h
        | some r2 =>
          cases r2 with
          | error e => rw [hr] at h; simp [oeBind] at h
          | ok vts2 =>
            rw [hr] at h
            simp only [oeBind, oePure, Option.some.injEq, Except.ok.injEq] at h
            cases ovt with
            | none =>
              dsimp only at h
              rw [← h] at hvt
              obtain ⟨td2, htd2, hp2⟩ := ih vts2 hr vt hvt
              exact ⟨td2, List.mem_cons_of_mem td htd2, hp2⟩
            | some vt0 =>
              dsimp only at h
              rw [← h] at hvt
              rcases List.mem_cons.mp hvt with he | hm
              · exact ⟨td, List.mem_cons_self td rest, by rw [hp, he]⟩
              · obtain ⟨td2, htd2, hp2⟩ := ih vts2 hr vt hm
                exact ⟨td2, List.mem_cons_of_mem td htd2, hp2⟩

/-- A tool definition that is emitted (not dropped, no exception) and
whose source chain resolved to a root with a truthy schema satisfies the
coverage invariant: every element of the root's `required` list is a
string naming an advertised property or a default key of the emitted
virtual tool. -/
theorem processTool_emit_coverage (ctx : LoadCtx) (td : RegistryTool) (vt : VirtualTool)
    (hp : processTool ctx td = some (.ok (some vt))) :
    ∀ is2 sis0 ses reqElems,
      resolveSchemas ctx (fun n => toolByName ctx.toolsData n)
          (ctx.toolsData.length + 1) td = some (.ok (is2, some sis0)) →
      sis0.truthy = true →
      sis0.objEntries = some ses →
      pySetElems ((entriesGet ses "required").getD (.arr [])) = .ok reqElems →
      ∀ j ∈ reqElems, ∃ s, j = .str s ∧ s ∈ providedFieldNames vt := by
  intro is2 sis0 ses reqElems hs htr hses hreq j hj
  rw [processTool] at hp
  dsimp only at hp
  cases h1 : resolveServerCfg ctx (fun n => toolByName ctx.toolsData n)
      (ctx.toolsData.length + 1) td with
  | none => rw [h1] at hp; simp [oeBind] at hp
  | some r1 =>
    cases r1 with
    | error e => rw [h1] at hp; simp [oeBind] at hp
    | ok cfg =>
      rw [h1] at hp
      simp only [oeBind] at hp
      rw [hs] at hp
      simp only [oeBind] at hp
      cases h3 : applyDefaults is2 (td.defaults.getD (.obj [])) with
      | error e => rw [h3] at hp; simp [oeBind, oeOfExcept] at hp
      | ok is3 =>
        rw [h3] at hp
        simp only [oeOfExcept, oeBind] at hp
        rw [htr] at hp
        simp only [if_true] at hp
        cases h5 : coverageMissing sis0 is3 (td.defaults.getD (.obj [])) with
        | error e => rw [h5] at hp; simp [oeBind, oeOfExcept] at hp
        | ok missing =>
          rw [h5] at hp
          simp only [oeOfExcept, oeBind] at hp
          by_cases hm : missing.isEmpty = true
          · rw [hm] at hp
            simp only [Bool.not_true, Bool.false_eq_true, if_false] at hp
            have hnil : missing = [] := by
              cases missing with
              | nil => rfl
              | cons a t => simp at hm
            cases h4 : resolveOriginalName (fun n => toolByName ctx.toolsData n)
                (ctx.toolsData.length + 1) td with
            | none => rw [h4] at hp; simp [oeBind] at hp
            | some r4 =>
              cases r4 with
              | error e => rw [h4] at hp; simp [oeBind] at hp
              | ok onF =>
                rw [h4] at hp
                simp only [oeBind, oePure, Option.some.injEq, Except.ok.injEq] at hp
                rw [coverageMissing, hses] at h5
                dsimp only at h5
                rw [hreq] at h5
                cases h6 : is3.objEntries with
                | none => rw [h6] at h5; simp at h5
                | some ises =>
                  rw [h6] at h5
                  dsimp only at h5
                  cases h7 : ((entriesGet ises "properties").getD (.obj [])).objEntries with
                  | none => rw [h7] at h5; simp at h5
                  | some pes =>
                    rw [h7] at h5
                    dsimp only at h5
                    cases hdj : td.defaults.getD (.obj []) with
                    | obj des =>
                      rw [hdj] at h5
                      simp only [defaultsKeysOf, Except.ok.injEq] at h5
                      rw [hnil] at h5
                      have hkey : ((jGet is3 "properties").getD (.obj [])).objEntries.getD []
                          = pes := by
                        rw [jGet, h6]
                        dsimp only [Option.bind]
                        rw [h7]
                        rfl
                      have hprov : providedFieldNames vt
                          = pes.map (·.1) ++ des.map (·.1) := by
                        rw [← hp, providedFieldNames]
                        dsimp only
                        rw [hkey, hdj]
                        rfl
                      cases j with
                      | str s =>
                        refine ⟨s, rfl, ?_⟩
                        by_cases hc : (pes.map (·.1) ++ des.map (·.1)).contains s = true
                        · rw [hprov]
                          simpa using hc
                        · rw [Bool.not_eq_true] at hc
                          have hjmem : Json.str s ∈ reqElems.filter (fun j2 =>
                              match j2 with
                              | .str s2 => !((pes.map (·.1) ++ des.map (·.1)).contains s2)
                              | _ => true) :=
                            List.mem_filter.mpr ⟨hj, by dsimp only; rw [hc]; rfl⟩
                          rw [h5] at hjmem
                          exact absurd hjmem (List.not_mem_nil _)
                      | null =>
                        have hjmem : Json.null ∈ reqElems.filter (fun j2 =>
                            match j2 with
                            | .str s2 => !((pes.map (·.1) ++ des.map (·.1)).contains s2)
                            | _ => true) :=
                          List.mem_filter.mpr ⟨hj, rfl⟩
                        rw [h5] at hjmem
                        exact absurd hjmem (List.not_mem_nil _)
                      | bool b =>
                        have hjmem : Json.bool b ∈ reqElems.filter (fun j2 =>
                            match j2 with
                            | .str s2 => !((pes.map (·.1) ++ des.map (·.1)).contains s2)
                            | _ => true) :=
                          List.mem_filter.mpr ⟨hj, rfl⟩
                        rw [h5] at hjmem
                        exact absurd hjmem (List.not_mem_nil _)
                      | num m e =>
                        have hjmem : Json.num m e ∈ reqElems.filter (fun j2 =>
                            match j2 with
                            | .str s2 => !((pes.map (·.1) ++ des.map (·.1)).contains s2)
                            | _ => true) :=
                          List.mem_filter.mpr ⟨hj, rfl⟩
                        rw [h5] at hjmem
                        exact absurd hjmem (List.not_mem_nil _)
                      | arr l =>
                        have hjmem : Json.arr l ∈ reqElems.filter (fun j2 =>
                            match j2 with
                            | .str s2 => !((pes.map (·.1) ++ des.map (·.1)).contains s2)
                            | _ => true) :=
                          List.mem_filter.mpr ⟨hj, rfl⟩
                        rw [h5] at hjmem
                        exact absurd hjmem (List.not_mem_nil _)
                      | obj kvs =>
                        have hjmem : Json.obj kvs ∈ reqElems.filter (fun j2 =>
                            match j2 with
                            | .str s2 => !((pes.map (·.1) ++ des.map (·.1)).contains s2)
                            | _ => true) :=
                          List.mem_filter.mpr ⟨hj, rfl⟩
                        rw [h5] at hjmem
                        exact absurd hjmem (List.not_mem_nil _)
                    | null => rw [hdj] at h5; simp [defaultsKeysOf] at h5
                    | bool b => rw [hdj] at h5; simp [defaultsKeysOf] at h5
                    | num m e => rw [hdj] at h5; simp [defaultsKeysOf] at h5
                    | str s => rw [hdj] at h5; simp [defaultsKeysOf] at h5
                    | arr l => rw [hdj] at h5; simp [defaultsKeysOf] at h5
          · rw [Bool.not_eq_true] at hm
            rw [hm] at hp
            simp at hp

/-- C5: every virtual tool the loader emits comes from a tool definition
whose processing succeeded, and whenever that definition's source chain
resolves to a root whose schema is truthy, every element of the root
schema's `required` list is a string that names an advertised
`input_schema.properties` key or a default key of the emitted tool — a
definition violating this coverage invariant is dropped at load time and
never emitted. -/
theorem c5_required_coverage (doc : RegistryDoc) (ns : List (String × ServerConfig))
    (vts : List VirtualTool) (hns : buildNamedServers doc.servers = .ok ns)
    (hload : loadRegistry doc = some (.ok vts)) (vt : VirtualTool) (hv : vt ∈ vts) :
    ∃ td ∈ doc.tools,
      processTool { schemas := doc.schemas, namedServers := ns, toolsData := doc.tools } td
          = some (.ok (some vt))
        ∧ ∀ is2 sis0 ses reqElems,
            resolveSchemas { schemas := doc.schemas, namedServers := ns, toolsData := doc.tools }
                (fun n => toolByName doc.tools n) (doc.tools.length + 1) td
              = some (.ok (is2, some sis0)) →
            sis0.truthy = true →
            sis0.objEntries = some ses →
            pySetElems ((entriesGet ses "required").getD (.arr [])) = .ok reqElems →
            ∀ j ∈ reqElems, ∃ s, j = .str s ∧ s ∈ providedFieldNames vt := by
  rw [loadRegistry, hns] at hload
  obtain ⟨td, htd, hp⟩ :=
    loadTools_mem_processTool
      { schemas := doc.schemas, namedServers := ns, toolsData := doc.tools }
      doc.tools vts hload vt hv
  exact ⟨td, htd, hp, fun is2 sis0 ses reqElems hs htr hses hreq =>
    processTool_emit_coverage
      { schemas := doc.schemas, namedServers := ns, toolsData := doc.tools }
      td vt hp is2 sis0 ses reqElems hs htr hses hreq⟩

/-- Witness for C5 at `covOkDoc`: the emitted `covered` tool, whose
default covers the root's required field `b`. -/
theorem c5_required_coverage_witness :
    ∃ td ∈ covOkDoc.tools,
      processTool
          { schemas := covOkDoc.schemas,
            namedServers := [("s", { url := some "http://x" })],
            toolsData := covOkDoc.tools } td
          = some (.ok (some vtCovered))
        ∧ ∀ is2 sis0 ses reqElems,
            resolveSchemas
                { schemas := covOkDoc.schemas,
                  namedServers := [("s", { url := some "http://x" })],
                  toolsData := covOkDoc.tools }
                (fun n => toolByName covOkDoc.tools n) (covOkDoc.tools.length + 1) td
              = some (.ok (is2, some sis0)) →
            sis0.truthy = true →
            sis0.objEntries = some ses →
            pySetElems ((entriesGet ses "required").getD (.arr [])) = .ok reqElems →
            ∀ j ∈ reqElems, ∃ s, j = .str s ∧ s ∈ providedFieldNames vtCovered :=
  c5_required_coverage covOkDoc [("s", { url := some "http://x" })] [vtBase, vtCovered]
    rfl rfl vtCovered (by simp)

/-- C4 (amended): the only per-tool load-time violation that drops just
the offending tool while loading proceeds is the step-4 coverage
invariant — `processTool` yields a drop exactly on a coverage violation;
a `source` or `server` reference that does not resolve raises a
`ValueError` that aborts the whole load (and a cyclic chain diverges,
claim C3).  The concrete conjuncts show a coverage violator being
dropped while the following tool still loads, and a bad reference
aborting. -/
theorem c4_amended :
    (∀ ctx td, processTool ctx td = some (.ok none) ↔ coverageViolated ctx td = true)
      ∧ loadRegistry covDoc = some (.ok [vtBase])
      ∧ loadRegistry badRefDoc
          = some (.error "Tool 'bad' references unknown source 'nope'") := by
  refine ⟨?_, rfl, rfl⟩
  intro ctx td
  rw [processTool, coverageViolated]
  dsimp only
  cases h1 : resolveServerCfg ctx (fun n => toolByName ctx.toolsData n)
      (ctx.toolsData.length + 1) td with
  | none => simp [oeBind]
  | some r1 =>
    cases r1 with
    | error e => simp [oeBind]
    | ok cfg =>
      simp only [oeBind]
      cases h2 : resolveSchemas ctx (fun n => toolByName ctx.toolsData n)
          (ctx.toolsData.length + 1) td with
      | none => simp [oeBind]
      | some r2 =>
        cases r2 with
        | error e => simp [oeBind]
        | ok pair =>
          obtain ⟨is2, sourceIS⟩ := pair
          simp only [oeBind]
          cases sourceIS with
          | none =>
            cases h3 : applyDefaults is2 (td.defaults.getD (.obj [])) with
            | error e => simp [oeBind, oeOfExcept]
            | ok is3 =>
              simp only [oeOfExcept, oeBind, oePure]
              simp only [List.isEmpty_nil, Bool.not_true, Bool.false_eq_true, if_false]
              cases h4 : resolveOriginalName (fun n => toolByName ctx.toolsData n)
                  (ctx.toolsData.length + 1) td with
              | none => simp [oeBind]
              | some r4 =>
                cases r4 with
                | error e => simp [oeBind]
                | ok onF => simp [oeBind, oePure]
          | some sis0 =>
            cases h3 : applyDefaults is2 (td.defaults.getD (.obj [])) with
            | error e => simp [oeBind, oeOfExcept, h3]
            | ok is3 =>
              simp only [oeOfExcept, oeBind]
              by_cases htr : sis0.truthy = true
              · rw [htr]
                simp only [if_true, Bool.true_and]
                cases h5 : coverageMissing sis0 is3 (td.defaults.getD (.obj [])) with
                | error e => simp [oeBind, oeOfExcept, h3, h5]
                | ok missing =>
                  simp only [oeOfExcept, oeBind]
                  by_cases hm : missing.isEmpty = true
                  · rw [hm]
                    simp only [Bool.not_true, Bool.false_eq_true, if_false]
                    cases h4 : resolveOriginalName (fun n => toolByName ctx.toolsData n)
                        (ctx.toolsData.length + 1) td with
                    | none => simp [oeBind, hm, h3, h5]
                    | some r4 =>
                      cases r4 with
                      | error e => simp [oeBind, hm, h3, h5]
                      | ok onF => simp [oeBind, oePure, hm, h3, h5]
                  · rw [Bool.not_eq_true] at hm
                    rw [hm]
                    simp [hm, h3, h5]
              · rw [Bool.not_eq_true] at htr
                rw [htr]
                simp only [Bool.false_eq_true, if_false, oePure, oeBind, Bool.false_and]
                simp only [List.isEmpty_nil, Bool.not_true, Bool.false_eq_true, if_false]
                cases h4 : resolveOriginalName (fun n => toolByName ctx.toolsData n)
                    (ctx.toolsData.length + 1) td with
                | none => simp [oeBind]
                | some r4 =>
                  cases r4 with
                  | error e => simp [oeBind]
                  | ok onF => simp [oeBind, oePure]

/-- Witness for C4 at the concrete coverage violator of `covDoc`: the
`narrow` tool is dropped. -/
theorem c4_amended_witness :
    processTool covCtx narrowTool = some (.ok none) :=
  (c4_amended.1 covCtx narrowTool).mpr rfl

end McpProxy
